import Mathlib

/-!
Shallow embedding of the genetic-algorithm driver of `GeneticAlgorithm.cpp`.

The driver object of `src/GeneticAlgorithm.cpp` is embedded as a record that is
passed explicitly from one member function to the next.

Modelling conventions.

* `std::vector` is a `List`; `v[k]` with `k` outside the vector is undefined
  behaviour in the source and is the fault `Fault.outOfRange` here.
* `rand()` is a stream of natural numbers (`Env.rand`), the values `rand()`
  returns (`0 ≤ r ≤ RAND_MAX < 2 ^ 31`); the generator state is the number of
  draws made so far (`GeneticAlgorithm.mRandCalls`).
* `size_t` is `Nat`; the one subtraction of the source (`update`, line 110)
  wraps modulo `2 ^ 64`, and `static_cast<int>` of a `size_t` keeps the low
  32 bits as a signed number.  Sums and products of indices are taken without
  wrap-around.
* `int` is 32 bits wide: an `int` sum or difference is reduced to the signed
  residue modulo `2 ^ 32` (`wrapInt`), which is what the compiled code
  computes, `%` by an `int` zero is the fault `Fault.divisionByZero`, and the
  conversion of a double outside the `int` range yields the least `int`.
  The fields of a `GAValue` are `Int`; those of a gene of the program lie in
  `[-2 ^ 31, 2 ^ 31)`.
* A `double` fitness is a rational number: every finite double is one, and the
  source only stores and compares fitness values.
* The arithmetic of the `Float` and `Double` branches of the operators is not
  interpreted: it is a parameter (`FloatOps`) acting on the stored payload.
-/

namespace hg

/-! ## Data model (`GeneticAlgorithm.hpp`) -/

/-- The enumeration `GADataType`. -/
inductive GADataType
  | Integer
  | Float
  | Double
  deriving DecidableEq, Repr

/-- The structure `GAValue`; the three unions are represented by their payload. -/
structure GAValue where
  dataType : GADataType := GADataType.Integer
  numberValue : Int
  minValue : Int
  maxValue : Int
  deriving DecidableEq, Repr

/-- The structure `FitnessData`, with its default member values. -/
structure FitnessData where
  index : Nat := 0
  fitness : ℚ := -1
  deriving DecidableEq

/-- Undefined behaviour the source can run into. -/
inductive Fault
  | outOfRange
  | divisionByZero
  deriving DecidableEq, Repr

/-- Uninterpreted floating-point arithmetic of the `Float` and `Double` branches. -/
structure FloatOps where
  /-- Float mutation `min.f + r / float(RAND_MAX_VALUE - 1) * (max.f - min.f)`, arguments `r min max`. -/
  mutateFloat : Nat → Int → Int → Int
  /-- Double mutation `min.d + r / float(RAND_MAX_VALUE - 1) * (max.d - min.d)`, arguments `r min max`. -/
  mutateDouble : Nat → Int → Int → Int
  /-- Float step `value.f += float(diff)`, arguments `value diff`. -/
  addFloat : Int → Int → Int
  /-- Double step `value.d += double(diff)`, arguments `value diff`. -/
  addDouble : Int → Int → Int
  /-- Float clamp `std::min(std::max(value.f, min.f), max.f)`, arguments `value min max`. -/
  clampFloat : Int → Int → Int → Int
  /-- Double clamp `std::min(std::max(value.d, min.d), max.d)`, arguments `value min max`. -/
  clampDouble : Int → Int → Int → Int

/-- What the driver takes from outside: the results of `rand()`, the fitness
callback (with its user data; it reads one gene slice and is pure) and the
floating-point arithmetic. -/
structure Env where
  rand : Nat → Nat
  fitness : List GAValue → ℚ
  fp : FloatOps

/-- The data members of the class `GeneticAlgorithm`, and the draw counter of `rand()`. -/
structure GeneticAlgorithm where
  mSolutions : List GAValue
  mFitnessData : List FitnessData
  mBestSolution : List GAValue
  mValueCount : Nat
  mCurrentEpoch : Nat
  mEpochs : Nat
  mNumParents : Nat
  mNumGenesToModify : Nat
  mRandCalls : Nat
  deriving DecidableEq

/-- The constant `RAND_MAX_VALUE`. -/
def RAND_MAX_VALUE : Nat := 10000000

/-! ## Machine arithmetic and container access -/

/-- Subtraction of two `size_t` values (64 bits, wraps). -/
def sizeSub (a b : Nat) : Nat := (a % 2 ^ 64 + (2 ^ 64 - b % 2 ^ 64)) % 2 ^ 64

/-- The conversion `static_cast<int>` of a `size_t`. -/
def toInt (n : Nat) : Int := Int.bmod (n : Int) (2 ^ 32)

/-- The value an `int` expression takes for the exact result `x`: the signed
residue of `x` modulo `2 ^ 32`. -/
def wrapInt (x : Int) : Int := Int.bmod x (2 ^ 32)

/-- The expression `rand() % static_cast<int>(n)` converted back to `size_t`, for the draw `r`. -/
def randMod (r n : Nat) : Except Fault Nat :=
  if toInt n = 0 then Except.error Fault.divisionByZero
  else Except.ok (Int.tmod (r : Int) (toInt n)).toNat

/-- Reading `v[k]`. -/
def readAt {α : Type} (v : List α) (k : Nat) : Except Fault α :=
  match v.get? k with
  | some a => Except.ok a
  | none => Except.error Fault.outOfRange

/-- Writing `v[k] = a`. -/
def writeAt {α : Type} (v : List α) (k : Nat) (a : α) : Except Fault (List α) :=
  if k < v.length then Except.ok (v.set k a) else Except.error Fault.outOfRange

/-- One call of `rand()`: the draw and the advanced generator. -/
def nextRand (env : Env) (s : GeneticAlgorithm) : Nat × GeneticAlgorithm :=
  (env.rand s.mRandCalls, { s with mRandCalls := s.mRandCalls + 1 })

/-! ## Free functions -/

/-- The function `pickRandomParent`, for the draw `r`. -/
def pickRandomParent (r parentCount : Nat) : Except Fault Nat :=
  randMod r parentCount

/-- The function `getGeneIndex`. -/
def getGeneIndex (populationIndex geneCount geneOffset : Nat) : Nat :=
  populationIndex * geneCount + geneOffset

/-- The function `pickRandomGene`, for the draw `r`. -/
def pickRandomGene (r populationIndex geneCount : Nat) : Except Fault Nat := do
  let geneOffset ← randMod r geneCount
  pure (getGeneIndex populationIndex geneCount geneOffset)

/-- The comparison `compareDescending`. -/
def compareDescending (a b : FitnessData) : Bool :=
  decide (a.fitness > b.fitness)

/-! ## Operator set -/

/-- The member `ensureLimits`. -/
def ensureLimits (fp : FloatOps) (value : GAValue) : GAValue :=
  match value.dataType with
  | GADataType.Integer =>
      { value with numberValue := min (max value.numberValue value.minValue) value.maxValue }
  | GADataType.Float =>
      { value with numberValue := fp.clampFloat value.numberValue value.minValue value.maxValue }
  | GADataType.Double =>
      { value with numberValue := fp.clampDouble value.numberValue value.minValue value.maxValue }

/-- The member `mutate`, for the draw `r` of its one `rand()` call. -/
def mutate (fp : FloatOps) (r : Nat) (value : GAValue) : Except Fault GAValue :=
  match value.dataType with
  | GADataType.Integer =>
      if wrapInt (value.maxValue - value.minValue + 1) = 0 then
        Except.error Fault.divisionByZero
      else Except.ok (ensureLimits fp
        { value with
          numberValue := wrapInt (value.minValue
            + Int.tmod (r : Int) (wrapInt (value.maxValue - value.minValue + 1))) })
  | GADataType.Float =>
      Except.ok (ensureLimits fp
        { value with
          numberValue := fp.mutateFloat (r % RAND_MAX_VALUE) value.minValue value.maxValue })
  | GADataType.Double =>
      Except.ok (ensureLimits fp
        { value with
          numberValue := fp.mutateDouble (r % RAND_MAX_VALUE) value.minValue value.maxValue })

/-- The member `crossOver`: the new first and the new second value. -/
def crossOver (value1 value2 : GAValue) : GAValue × GAValue :=
  ({ value1 with dataType := value2.dataType, numberValue := value2.numberValue },
   { value2 with dataType := value1.dataType, numberValue := value1.numberValue })

/-- The member `translate`, for the draw `r` of its one `rand()` call. -/
def translate (fp : FloatOps) (r : Nat) (value : GAValue) : GAValue :=
  let diff : Int := if r % 2 = 0 then 1 else -1
  match value.dataType with
  | GADataType.Integer =>
      ensureLimits fp { value with numberValue := wrapInt (value.numberValue + diff) }
  | GADataType.Float =>
      ensureLimits fp { value with numberValue := fp.addFloat value.numberValue diff }
  | GADataType.Double =>
      ensureLimits fp { value with numberValue := fp.addDouble value.numberValue diff }

/-! ## Gene copy, evaluation and ranking -/

/-- The member `copyGenes`.  The local `childOffset` of the source is computed
and never used: the destination index is `parentIndex + i`. -/
def copyGenes (s : GeneticAlgorithm) (parent _child : Nat) : Except Fault GeneticAlgorithm := do
  let geneCount := s.mValueCount
  let parentOffset := parent * geneCount
  let sols ← (List.range geneCount).foldlM
    (fun (sols : List GAValue) (i : Nat) => do
      let parentIndex := parentOffset + i
      let childIndex := parentIndex + i
      let g ← readAt sols parentIndex
      writeAt sols childIndex g)
    s.mSolutions
  pure { s with mSolutions := sols }

/-- The call `std::sort(begin, end, compareDescending)`: an entry moves in
front of another only when `compareDescending` puts it there (insertion
sort, the algorithm `std::sort` runs on short ranges).  The standard leaves
the order of entries of equal fitness open; here the earlier one stays first. -/
def stdSort (v : List FitnessData) : List FitnessData :=
  List.insertionSort (fun a b => compareDescending b a = false) v

/-- The gene slice `[i * mValueCount, i * mValueCount + mValueCount)` handed to the callback. -/
def geneSlice (s : GeneticAlgorithm) (i : Nat) : List GAValue :=
  (s.mSolutions.drop (i * s.mValueCount)).take s.mValueCount

/-- The table filled by the first loop of `evaluateFitnessFunction`. -/
def fitnessTable (env : Env) (s : GeneticAlgorithm) : List FitnessData :=
  (List.range s.mFitnessData.length).map
    (fun i => { index := i, fitness := env.fitness (geneSlice s i) })

/-- The member `evaluateFitnessFunction` (the printing loop has no effect on the state). -/
def evaluateFitnessFunction (env : Env) (s : GeneticAlgorithm) : GeneticAlgorithm :=
  { s with mFitnessData := stdSort (fitnessTable env s) }

/-! ## Evolution driver -/

/-- The body of the mutation loop of `update`, at rank position `i`. -/
def mutateStep (env : Env) (s : GeneticAlgorithm) (i : Nat) : Except Fault GeneticAlgorithm := do
  let (r1, s) := nextRand env s
  let p ← pickRandomParent r1 s.mNumParents
  let parent ← readAt s.mFitnessData p
  let child ← readAt s.mFitnessData i
  let s ← copyGenes s parent.index child.index
  let (r2, s) := nextRand env s
  let geneIndex ← pickRandomGene r2 child.index s.mValueCount
  let g ← readAt s.mSolutions geneIndex
  let (r3, s) := nextRand env s
  let g1 ← mutate env.fp r3 g
  let sols ← writeAt s.mSolutions geneIndex g1
  pure { s with mSolutions := sols }

/-- The body of the crossover loop of `update`, at rank positions `i` and `i + 1`. -/
def crossOverStep (env : Env) (s : GeneticAlgorithm) (i : Nat) : Except Fault GeneticAlgorithm := do
  let (r1, s) := nextRand env s
  let p ← pickRandomParent r1 s.mNumParents
  let parent ← readAt s.mFitnessData p
  let child ← readAt s.mFitnessData i
  let child2 ← readAt s.mFitnessData (i + 1)
  let s ← copyGenes s parent.index child.index
  let s ← copyGenes s parent.index child2.index
  let (r2, s) := nextRand env s
  let geneIndex ← pickRandomGene r2 child.index s.mValueCount
  let gene2Index := getGeneIndex child2.index s.mValueCount (geneIndex % s.mValueCount)
  let value1 ← readAt s.mSolutions geneIndex
  let value2 ← readAt s.mSolutions gene2Index
  let sols ← writeAt s.mSolutions geneIndex (crossOver value1 value2).1
  let sols ← writeAt sols gene2Index (crossOver value1 value2).2
  pure { s with mSolutions := sols }

/-- The body of the translation loop of `update`, at rank position `i`. -/
def translateStep (env : Env) (s : GeneticAlgorithm) (i : Nat) : Except Fault GeneticAlgorithm := do
  let (r1, s) := nextRand env s
  let p ← pickRandomParent r1 s.mNumParents
  let parent ← readAt s.mFitnessData p
  let child ← readAt s.mFitnessData i
  let s ← copyGenes s parent.index child.index
  let (r2, s) := nextRand env s
  let geneIndex ← pickRandomGene r2 child.index s.mValueCount
  let g ← readAt s.mSolutions geneIndex
  let (r3, s) := nextRand env s
  let sols ← writeAt s.mSolutions geneIndex (translate env.fp r3 g)
  pure { s with mSolutions := sols }

/-- The rank positions `offset, offset + step, ...` below `stop` of a `for` loop. -/
def loopRange (offset stop step : Nat) : List Nat :=
  List.range' offset ((stop - offset + (step - 1)) / step) step

/-- The rank positions visited by the mutation loop of `update`. -/
def mutateBand (size numParents : Nat) : List Nat :=
  let offset := numParents
  let len := sizeSub size offset
  let lenDelta := len / 3
  let stop := lenDelta
  loopRange offset stop 1

/-- The first rank positions `i` of the pairs `(i, i + 1)` visited by the crossover loop of `update`. -/
def crossOverBand (size numParents : Nat) : List Nat :=
  let len := sizeSub size numParents
  let lenDelta := len / 3
  let offset := lenDelta
  let stop := offset + lenDelta
  let offset := offset - offset % 2
  let stop := stop - stop % 2
  loopRange offset stop 2

/-- The rank positions visited by the translation loop of `update`. -/
def translateBand (size numParents : Nat) : List Nat :=
  let len := sizeSub size numParents
  let lenDelta := len / 3
  let stop := lenDelta + lenDelta
  let stop := stop - stop % 2
  let offset := stop
  let stop := len
  loopRange offset stop 1

/-- The member `update`: one update pass. -/
def update (env : Env) (s : GeneticAlgorithm) : Except Fault GeneticAlgorithm := do
  let size := s.mFitnessData.length
  let s ← (mutateBand size s.mNumParents).foldlM (mutateStep env) s
  let s ← (crossOverBand size s.mNumParents).foldlM (crossOverStep env) s
  let s ← (translateBand size s.mNumParents).foldlM (translateStep env) s
  pure (evaluateFitnessFunction env s)

/-- The member `advance`: the returned flag and the new state. -/
def advance (env : Env) (s : GeneticAlgorithm) : Except Fault (Bool × GeneticAlgorithm) := do
  let s := { s with mCurrentEpoch := s.mCurrentEpoch + 1 }
  let s ← (List.range s.mNumGenesToModify).foldlM (fun s _ => update env s) s
  if s.mCurrentEpoch ≥ s.mEpochs then
    pure (false, s)
  else
    pure (true, s)

/-- The constructor `GeneticAlgorithm::GeneticAlgorithm`.  Its loop
`for (auto solution : mSolutions) mutate(solution)` works on a copy of each
gene: it makes one draw per gene and stores nothing. -/
def construct (env : Env) (initialValues : List GAValue)
    (populationSize epochs numParents numGenesToModify : Nat) : Except Fault GeneticAlgorithm := do
  let mValueCount := initialValues.length
  let mNumGenesToModify := min (max 1 numGenesToModify) mValueCount
  let mSolutions := (List.replicate populationSize initialValues).flatten
  let calls ← mSolutions.foldlM
    (fun (n : Nat) (solution : GAValue) => do
      let _ ← mutate env.fp (env.rand n) solution
      pure (n + 1))
    0
  pure (evaluateFitnessFunction env
    { mSolutions := mSolutions
      mFitnessData := List.replicate populationSize {}
      mBestSolution := []
      mValueCount := mValueCount
      mCurrentEpoch := 0
      mEpochs := epochs
      mNumParents := numParents
      mNumGenesToModify := mNumGenesToModify
      mRandCalls := calls })

/-! ## Queries -/

/-- The conversion `static_cast<int>` of a double: truncation towards zero
when the truncated value is an `int`, and the least `int` otherwise. -/
def doubleToInt (q : ℚ) : Int :=
  if -(2 : ℚ) ^ 31 - 1 < q ∧ q < (2 : ℚ) ^ 31 then (if 0 ≤ q then ⌊q⌋ else ⌈q⌉)
  else -(2 : Int) ^ 31

/-- The member `getProgress`, the quotient taken in exact arithmetic.  With
`mEpochs = 0` the double quotient is infinite or not a number, which the
conversion takes to the least `int`. -/
def getProgress (s : GeneticAlgorithm) : Except Fault Int :=
  if s.mEpochs = 0 then Except.ok (-(2 : Int) ^ 31)
  else Except.ok (doubleToInt ((1 : ℚ) / 10 + 100 * (s.mCurrentEpoch : ℚ) / (s.mEpochs : ℚ)))

/-- The member `hasSolution`. -/
def hasSolution (s : GeneticAlgorithm) : Except Fault Bool := do
  let best ← readAt s.mFitnessData 0
  pure (decide (best.fitness ≥ 0))

/-- The member `getBestScore`. -/
def getBestScore (s : GeneticAlgorithm) : Except Fault ℚ := do
  let best ← readAt s.mFitnessData 0
  pure best.fitness

/-- The member `getBestSolution`: the returned vector and the new state. -/
def getBestSolution (s : GeneticAlgorithm) : Except Fault (List GAValue × GeneticAlgorithm) := do
  let best ← readAt s.mFitnessData 0
  let index := best.index * s.mValueCount
  if index + s.mValueCount ≤ s.mSolutions.length then
    let mBestSolution := (s.mSolutions.drop index).take s.mValueCount
    pure (mBestSolution, { s with mBestSolution := mBestSolution })
  else
    Except.error Fault.outOfRange

/-! ## Callers and specification predicates -/

/-- The members that only the constructor and `advance` write, and the size of the store. -/
def Frame (s s' : GeneticAlgorithm) : Prop :=
  s'.mFitnessData = s.mFitnessData ∧ s'.mValueCount = s.mValueCount ∧
  s'.mCurrentEpoch = s.mCurrentEpoch ∧ s'.mEpochs = s.mEpochs ∧
  s'.mNumParents = s.mNumParents ∧ s'.mNumGenesToModify = s.mNumGenesToModify ∧
  s'.mSolutions.length = s.mSolutions.length

/-- The Ranking Table is the sorted table of the present Population Store. -/
def InSync (env : Env) (s : GeneticAlgorithm) : Prop :=
  s.mFitnessData = stdSort (fitnessTable env s)

/-- The Population Store holds one slice of `mValueCount` genes per ranked individual. -/
def StoreSize (s : GeneticAlgorithm) : Prop :=
  s.mSolutions.length = s.mFitnessData.length * s.mValueCount

/-- The members and sizes that no update pass changes. -/
def Kept (s t : GeneticAlgorithm) : Prop :=
  t.mValueCount = s.mValueCount ∧ t.mCurrentEpoch = s.mCurrentEpoch ∧ t.mEpochs = s.mEpochs ∧
  t.mNumParents = s.mNumParents ∧ t.mNumGenesToModify = s.mNumGenesToModify ∧
  t.mSolutions.length = s.mSolutions.length ∧ t.mFitnessData.length = s.mFitnessData.length

/-- A caller making `k` successive calls of `advance`: the returned flags in
call order and the final state. -/
def advanceTimes (env : Env) : Nat → GeneticAlgorithm → Except Fault (List Bool × GeneticAlgorithm)
  | 0, s => pure ([], s)
  | k + 1, s => do
      let (flags, s1) ← advanceTimes env k s
      let (b, s2) ← advance env s1
      pure (flags ++ [b], s2)

/-- Descending fitness over all pairs of rank positions `i < j`. -/
def Descending (t : List FitnessData) : Prop :=
  ∀ (i j : Nat) (hij : i < j) (hj : j < t.length),
    (t.get ⟨j, hj⟩).fitness ≤ (t.get ⟨i, hij.trans hj⟩).fitness

/-- A gene that has the kind and the bounds of the template gene `tg`. -/
def SameSlot (tg g : GAValue) : Prop :=
  g.dataType = tg.dataType ∧ g.minValue = tg.minValue ∧ g.maxValue = tg.maxValue

/-- A driver over a one-gene template `tg` with `0 < numParents ≤ populationSize`:
every index it forms is inside its containers. -/
def OneGene (tg : GAValue) (pop : Nat) (s : GeneticAlgorithm) : Prop :=
  s.mValueCount = 1 ∧ 0 < s.mNumParents ∧ s.mNumParents ≤ pop ∧ pop < 2 ^ 31 ∧
  s.mSolutions.length = pop ∧ s.mFitnessData.length = pop ∧
  (∀ e ∈ s.mFitnessData, e.index < pop) ∧ (∀ g ∈ s.mSolutions, SameSlot tg g) ∧
  (tg.dataType = GADataType.Integer → wrapInt (tg.maxValue - tg.minValue + 1) ≠ 0)

/-- Floating-point arithmetic that returns its first payload argument; a
stand-in for runs over Integer genes, which never call it. -/
def inertFloatOps : FloatOps :=
  { mutateFloat := fun _ a _ => a
    mutateDouble := fun _ a _ => a
    addFloat := fun v _ => v
    addDouble := fun v _ => v
    clampFloat := fun v _ _ => v
    clampDouble := fun v _ _ => v }

/-- The fitness callback of the scenario: the value of the first gene. -/
def firstGeneValue (genes : List GAValue) : ℚ :=
  match genes with
  | [] => 0
  | g :: _ => (g.numberValue : ℚ)

/-- An environment in which every `rand()` call returns 0 and the fitness is the first gene's value. -/
def zeroDrawEnv : Env :=
  { rand := fun _ => 0, fitness := firstGeneValue, fp := inertFloatOps }

/-- The one-gene template of the scenario: an Integer gene with bounds [0, 10] and value 5. -/
def scenarioTemplate : List GAValue :=
  [{ dataType := GADataType.Integer, numberValue := 5, minValue := 0, maxValue := 10 }]

/-- The driver the constructor builds for the scenario (population 4, 3 epochs,
1 parent, 1 gene to modify) in `zeroDrawEnv`. -/
def scenarioStart : GeneticAlgorithm :=
  { mSolutions := scenarioTemplate ++ scenarioTemplate ++ scenarioTemplate ++ scenarioTemplate
    mFitnessData := [⟨0, 5⟩, ⟨1, 5⟩, ⟨2, 5⟩, ⟨3, 5⟩]
    mBestSolution := []
    mValueCount := 1
    mCurrentEpoch := 0
    mEpochs := 3
    mNumParents := 1
    mNumGenesToModify := 1
    mRandCalls := 4 }

/-- The scenario driver after its first `advance` call in `zeroDrawEnv`:
individual 2 was translated from 5 to 6 and leads the Ranking Table. -/
def scenarioAfterOne : GeneticAlgorithm :=
  { mSolutions :=
      [{ dataType := GADataType.Integer, numberValue := 5, minValue := 0, maxValue := 10 },
       { dataType := GADataType.Integer, numberValue := 5, minValue := 0, maxValue := 10 },
       { dataType := GADataType.Integer, numberValue := 6, minValue := 0, maxValue := 10 },
       { dataType := GADataType.Integer, numberValue := 5, minValue := 0, maxValue := 10 }]
    mFitnessData := [⟨2, 6⟩, ⟨0, 5⟩, ⟨1, 5⟩, ⟨3, 5⟩]
    mBestSolution := []
    mValueCount := 1
    mCurrentEpoch := 1
    mEpochs := 3
    mNumParents := 1
    mNumGenesToModify := 1
    mRandCalls := 9 }

/-- A two-gene Integer template whose genes sit inside their own bounds: gene 0
is 0 in [0, 0] and gene 1 is 5 in [5, 5]. -/
def twoGeneTemplate : List GAValue :=
  [{ dataType := GADataType.Integer, numberValue := 0, minValue := 0, maxValue := 0 },
   { dataType := GADataType.Integer, numberValue := 5, minValue := 5, maxValue := 5 }]

/-- An Integer gene with value `v` and bounds [0, 100]. -/
def plainGene (v : Int) : GAValue :=
  { dataType := GADataType.Integer, numberValue := v, minValue := 0, maxValue := 100 }

/-- A driver with two individuals of two genes each: individual 0 is (1, 2) and
individual 1 is (3, 4). -/
def twoByTwo : GeneticAlgorithm :=
  { mSolutions := [plainGene 1, plainGene 2, plainGene 3, plainGene 4]
    mFitnessData := [⟨1, 3⟩, ⟨0, 1⟩]
    mBestSolution := []
    mValueCount := 2
    mCurrentEpoch := 0
    mEpochs := 1
    mNumParents := 1
    mNumGenesToModify := 1
    mRandCalls := 0 }

/-- The scenario driver with the epoch counter set to `c` and `mEpochs` to `e`. -/
def atEpoch (c e : Nat) : GeneticAlgorithm :=
  { scenarioStart with mCurrentEpoch := c, mEpochs := e }

/-- The `n` update passes that the loop of `advance` makes. -/
def updateTimes (env : Env) : Nat → GeneticAlgorithm → Except Fault GeneticAlgorithm
  | 0, s => pure s
  | n + 1, s => do
      let s1 ← update env s
      updateTimes env n s1

/-- A two-gene Integer template with both genes in [0, 10]: gene 0 is 5 and gene 1 is 7. -/
def wideTemplate : List GAValue :=
  [{ dataType := GADataType.Integer, numberValue := 5, minValue := 0, maxValue := 10 },
   { dataType := GADataType.Integer, numberValue := 7, minValue := 0, maxValue := 10 }]

/-- An Integer gene at the top of the `int` range: value `2 ^ 31 - 1` in `[0, 2 ^ 31 - 1]`. -/
def topGene : GAValue :=
  { dataType := GADataType.Integer, numberValue := 2147483647, minValue := 0,
    maxValue := 2147483647 }

/-- An Integer gene whose bounds are the whole `int` range, with value 0. -/
def fullRangeGene : GAValue :=
  { dataType := GADataType.Integer, numberValue := 0, minValue := -2147483648,
    maxValue := 2147483647 }

/-! ## The fault monad -/

theorem bind_eq_ok {α β : Type} (x : Except Fault α) (f : α → Except Fault β) (b : β) :
    (x >>= f) = Except.ok b ↔ ∃ a, x = Except.ok a ∧ f a = Except.ok b := by
  cases x <;> simp [bind, Except.bind]

theorem pure_eq_ok {α : Type} (a b : α) : (pure a : Except Fault α) = Except.ok b ↔ a = b := by
  simp [pure, Except.pure]

theorem readAt_eq_ok {α : Type} (v : List α) (k : Nat) (a : α) :
    readAt v k = Except.ok a ↔ v.get? k = some a := by
  unfold readAt
  cases h : v.get? k <;> simp

theorem readAt_of_lt {α : Type} (v : List α) (k : Nat) (h : k < v.length) :
    readAt v k = Except.ok (v.get ⟨k, h⟩) := by
  rw [readAt_eq_ok]
  exact List.get?_eq_get h

theorem writeAt_eq_ok {α : Type} (v w : List α) (k : Nat) (a : α) :
    writeAt v k a = Except.ok w ↔ k < v.length ∧ w = v.set k a := by
  unfold writeAt
  by_cases h : k < v.length <;> simp [h, eq_comm]

theorem readAt_returns_iff {α : Type} (v : List α) (k : Nat) :
    (∃ a, readAt v k = Except.ok a) ↔ k < v.length := by
  constructor
  · rintro ⟨a, h⟩
    rw [readAt_eq_ok, List.get?_eq_getElem?] at h
    exact (List.getElem?_eq_some_iff.1 h).1
  · intro h
    exact ⟨_, readAt_of_lt v k h⟩

theorem writeAt_returns_iff {α : Type} (v : List α) (k : Nat) (a : α) :
    (∃ w, writeAt v k a = Except.ok w) ↔ k < v.length := by
  constructor
  · rintro ⟨w, h⟩
    exact ((writeAt_eq_ok v w k a).1 h).1
  · intro h
    exact ⟨_, (writeAt_eq_ok v _ k a).2 ⟨h, rfl⟩⟩

/-- A property kept by every iteration of a loop is kept by the loop. -/
theorem foldlM_keeps {σ α : Type} (P : σ → Prop) (f : σ → α → Except Fault σ) (l : List α)
    (hf : ∀ s a s', a ∈ l → P s → f s a = Except.ok s' → P s') :
    ∀ s s', P s → l.foldlM f s = Except.ok s' → P s' := by
  induction l with
  | nil =>
      intro s s' hs h
      rw [List.foldlM_nil, pure_eq_ok] at h
      exact h ▸ hs
  | cons a l ih =>
      intro s s' hs h
      rw [List.foldlM_cons, bind_eq_ok] at h
      obtain ⟨s1, h1, h2⟩ := h
      exact ih (fun s a s' ha => hf s a s' (List.mem_cons_of_mem _ ha)) s1 s'
        (hf s a s1 (List.mem_cons_self _ _) hs h1) h2

/-- A loop whose every iteration returns, under a property it keeps, returns. -/
theorem foldlM_returns {σ α : Type} (P : σ → Prop) (f : σ → α → Except Fault σ) (l : List α)
    (hf : ∀ s a, a ∈ l → P s → ∃ s', f s a = Except.ok s' ∧ P s') :
    ∀ s, P s → ∃ s', l.foldlM f s = Except.ok s' ∧ P s' := by
  induction l with
  | nil =>
      intro s hs
      exact ⟨s, by rw [List.foldlM_nil]; rfl, hs⟩
  | cons a l ih =>
      intro s hs
      obtain ⟨s1, h1, hs1⟩ := hf s a (List.mem_cons_self _ _) hs
      obtain ⟨s2, h2, hs2⟩ := ih (fun s a ha => hf s a (List.mem_cons_of_mem _ ha)) s1 hs1
      refine ⟨s2, ?_, hs2⟩
      rw [List.foldlM_cons, bind_eq_ok]
      exact ⟨s1, h1, h2⟩

/-! ## What an update pass leaves alone -/

theorem frame_refl (s : GeneticAlgorithm) : Frame s s :=
  ⟨rfl, rfl, rfl, rfl, rfl, rfl, rfl⟩

theorem frame_trans {a b c : GeneticAlgorithm} (h1 : Frame a b) (h2 : Frame b c) : Frame a c := by
  obtain ⟨p1, p2, p3, p4, p5, p6, p7⟩ := h1
  obtain ⟨q1, q2, q3, q4, q5, q6, q7⟩ := h2
  exact ⟨q1.trans p1, q2.trans p2, q3.trans p3, q4.trans p4, q5.trans p5, q6.trans p6,
    q7.trans p7⟩

theorem copyGenes_frame (s s' : GeneticAlgorithm) (parent child : Nat)
    (h : copyGenes s parent child = Except.ok s') : Frame s s' := by
  unfold copyGenes at h
  simp only [bind_eq_ok, pure_eq_ok] at h
  obtain ⟨sols, hsols, rfl⟩ := h
  refine ⟨rfl, rfl, rfl, rfl, rfl, rfl, ?_⟩
  refine foldlM_keeps (fun v : List GAValue => v.length = s.mSolutions.length) _ _ ?_ _ _ rfl hsols
  intro v i v' _ hv hstep
  simp only [bind_eq_ok, writeAt_eq_ok] at hstep
  obtain ⟨g, _, _, rfl⟩ := hstep
  simpa using hv

theorem mutateStep_frame (env : Env) (s s' : GeneticAlgorithm) (i : Nat)
    (h : mutateStep env s i = Except.ok s') : Frame s s' := by
  unfold mutateStep at h
  simp only [nextRand, bind_eq_ok, pure_eq_ok, writeAt_eq_ok] at h
  obtain ⟨p, _, parent, _, child, _, s1, hs1, gi, _, g, _, g1, _, sols, ⟨_, rfl⟩, rfl⟩ := h
  have hf := copyGenes_frame _ _ _ _ hs1
  obtain ⟨p1, p2, p3, p4, p5, p6, p7⟩ := hf
  exact ⟨p1, p2, p3, p4, p5, p6, by simpa using p7⟩


theorem crossOverStep_frame (env : Env) (s s' : GeneticAlgorithm) (i : Nat)
    (h : crossOverStep env s i = Except.ok s') : Frame s s' := by
  unfold crossOverStep at h
  simp only [nextRand, bind_eq_ok, pure_eq_ok, writeAt_eq_ok] at h
  obtain ⟨p, _, parent, _, child, _, child2, _, s1, hs1, s2, hs2, gi, _, v1, _, v2, _, sols,
    ⟨_, rfl⟩, sols2, ⟨_, rfl⟩, rfl⟩ := h
  obtain ⟨p1, p2, p3, p4, p5, p6, p7⟩ :=
    frame_trans (copyGenes_frame _ _ _ _ hs1) (copyGenes_frame _ _ _ _ hs2)
  exact ⟨p1, p2, p3, p4, p5, p6, by simpa using p7⟩

theorem translateStep_frame (env : Env) (s s' : GeneticAlgorithm) (i : Nat)
    (h : translateStep env s i = Except.ok s') : Frame s s' := by
  unfold translateStep at h
  simp only [nextRand, bind_eq_ok, pure_eq_ok, writeAt_eq_ok] at h
  obtain ⟨p, _, parent, _, child, _, s1, hs1, gi, _, g, _, sols, ⟨_, rfl⟩, rfl⟩ := h
  obtain ⟨p1, p2, p3, p4, p5, p6, p7⟩ := copyGenes_frame _ _ _ _ hs1
  exact ⟨p1, p2, p3, p4, p5, p6, by simpa using p7⟩

/-- A loop of frame-keeping iterations keeps the frame. -/
theorem foldlM_frame {α : Type} (f : GeneticAlgorithm → α → Except Fault GeneticAlgorithm)
    (hf : ∀ s s' a, f s a = Except.ok s' → Frame s s') (l : List α) (s s' : GeneticAlgorithm)
    (h : l.foldlM f s = Except.ok s') : Frame s s' :=
  foldlM_keeps (fun t => Frame s t) f l
    (fun t a t' _ ht hstep => frame_trans ht (hf t t' a hstep)) s s' (frame_refl s) h

/-- An update pass is three loops that keep the frame, followed by the evaluation. -/
theorem update_eq (env : Env) (s s' : GeneticAlgorithm) (h : update env s = Except.ok s') :
    ∃ t, Frame s t ∧ s' = evaluateFitnessFunction env t := by
  unfold update at h
  simp only [bind_eq_ok, pure_eq_ok] at h
  obtain ⟨s1, h1, s2, h2, s3, h3, rfl⟩ := h
  exact ⟨s3, frame_trans (frame_trans (foldlM_frame _ (mutateStep_frame env) _ _ _ h1)
    (foldlM_frame _ (crossOverStep_frame env) _ _ _ h2))
    (foldlM_frame _ (translateStep_frame env) _ _ _ h3), rfl⟩

/-! ## Ranking -/

theorem length_stdSort (v : List FitnessData) : (stdSort v).length = v.length :=
  List.length_insertionSort _ v

theorem length_fitnessTable (env : Env) (s : GeneticAlgorithm) :
    (fitnessTable env s).length = s.mFitnessData.length := by
  simp [fitnessTable]

theorem fitnessTable_congr (env : Env) (s t : GeneticAlgorithm)
    (h1 : t.mSolutions = s.mSolutions) (h2 : t.mValueCount = s.mValueCount)
    (h3 : t.mFitnessData.length = s.mFitnessData.length) :
    fitnessTable env t = fitnessTable env s := by
  simp [fitnessTable, geneSlice, h1, h2, h3]

theorem evaluate_inSync (env : Env) (s : GeneticAlgorithm) :
    InSync env (evaluateFitnessFunction env s) := by
  unfold InSync
  rw [fitnessTable_congr env s (evaluateFitnessFunction env s) rfl rfl]
  · rfl
  · simp [evaluateFitnessFunction, length_stdSort, length_fitnessTable]

theorem evaluate_length (env : Env) (s : GeneticAlgorithm) :
    (evaluateFitnessFunction env s).mFitnessData.length = s.mFitnessData.length := by
  simp [evaluateFitnessFunction, length_stdSort, length_fitnessTable]

theorem kept_refl (s : GeneticAlgorithm) : Kept s s :=
  ⟨rfl, rfl, rfl, rfl, rfl, rfl, rfl⟩

theorem kept_trans {a b c : GeneticAlgorithm} (h1 : Kept a b) (h2 : Kept b c) : Kept a c := by
  obtain ⟨p1, p2, p3, p4, p5, p6, p7⟩ := h1
  obtain ⟨q1, q2, q3, q4, q5, q6, q7⟩ := h2
  exact ⟨q1.trans p1, q2.trans p2, q3.trans p3, q4.trans p4, q5.trans p5, q6.trans p6,
    q7.trans p7⟩

theorem update_kept (env : Env) (s s' : GeneticAlgorithm) (h : update env s = Except.ok s') :
    Kept s s' ∧ InSync env s' := by
  obtain ⟨t, ⟨p1, p2, p3, p4, p5, p6, p7⟩, rfl⟩ := update_eq env s s' h
  refine ⟨⟨p2, p3, p4, p5, p6, p7, ?_⟩, evaluate_inSync env t⟩
  rw [evaluate_length, p1]

theorem StoreSize.of_kept {s t : GeneticAlgorithm} (h : Kept s t) (hs : StoreSize s) :
    StoreSize t := by
  obtain ⟨p1, _, _, _, _, p6, p7⟩ := h
  unfold StoreSize at *
  rw [p6, p7, p1, hs]

/-- The passes of one `advance` call. -/
theorem passes_kept (env : Env) (n : Nat) (s s' : GeneticAlgorithm)
    (h : (List.range n).foldlM (fun s _ => update env s) s = Except.ok s') :
    Kept s s' ∧ (InSync env s → InSync env s') := by
  refine foldlM_keeps (fun t => Kept s t ∧ (InSync env s → InSync env t)) _ _ ?_ s s'
    ⟨kept_refl s, id⟩ h
  intro t _ t' _ ht hstep
  obtain ⟨hk, hi⟩ := update_kept env t t' hstep
  exact ⟨kept_trans ht.1 hk, fun _ => hi⟩

/-- One call of `advance`: the counter, the flag and what is kept. -/
theorem advance_spec (env : Env) (s s' : GeneticAlgorithm) (b : Bool)
    (h : advance env s = Except.ok (b, s')) :
    s'.mCurrentEpoch = s.mCurrentEpoch + 1 ∧ b = decide (s.mCurrentEpoch + 1 < s.mEpochs) ∧
    s'.mEpochs = s.mEpochs ∧ s'.mValueCount = s.mValueCount ∧
    s'.mNumParents = s.mNumParents ∧ s'.mNumGenesToModify = s.mNumGenesToModify ∧
    s'.mSolutions.length = s.mSolutions.length ∧
    s'.mFitnessData.length = s.mFitnessData.length ∧
    (InSync env s → InSync env s') := by
  unfold advance at h
  simp only [bind_eq_ok] at h
  obtain ⟨t, ht, hb⟩ := h
  obtain ⟨⟨p1, p2, p3, p4, p5, p6, p7⟩, hsync⟩ := passes_kept env _ _ _ ht
  have hsync' : InSync env s → InSync env t := fun hs => hsync hs
  simp only at p1 p2 p3 p4 p5 p6 p7
  split at hb
  · rename_i hge
    simp only [pure_eq_ok, Prod.mk.injEq] at hb
    obtain ⟨rfl, rfl⟩ := hb
    refine ⟨p2, ?_, p3, p1, p4, p5, p6, p7, hsync'⟩
    rw [p2, p3] at hge
    simp
    omega
  · rename_i hge
    simp only [pure_eq_ok, Prod.mk.injEq] at hb
    obtain ⟨rfl, rfl⟩ := hb
    refine ⟨p2, ?_, p3, p1, p4, p5, p6, p7, hsync'⟩
    rw [p2, p3] at hge
    simp
    omega

theorem compareDescending_eq_false (a b : FitnessData) :
    compareDescending b a = false ↔ b.fitness ≤ a.fitness := by
  simp [compareDescending]

theorem stdSort_perm (v : List FitnessData) : (stdSort v).Perm v :=
  List.perm_insertionSort _ v

theorem stdSort_pairwise (v : List FitnessData) :
    (stdSort v).Pairwise (fun a b => b.fitness ≤ a.fitness) := by
  haveI : IsTotal FitnessData (fun a b => compareDescending b a = false) :=
    ⟨fun a b => by
      simp only [compareDescending_eq_false]
      exact le_total _ _⟩
  haveI : IsTrans FitnessData (fun a b => compareDescending b a = false) :=
    ⟨fun a b c h1 h2 => by
      simp only [compareDescending_eq_false] at *
      exact le_trans h2 h1⟩
  have h := List.sorted_insertionSort (fun a b => compareDescending b a = false) v
  exact List.Pairwise.imp (fun {a b} hab => (compareDescending_eq_false a b).1 hab) h

theorem stdSort_descending (v : List FitnessData) : Descending (stdSort v) := by
  intro i j hij hj
  have h := List.pairwise_iff_get.1 (stdSort_pairwise v) ⟨i, hij.trans hj⟩ ⟨j, hj⟩ hij
  exact h

theorem InSync.descending {env : Env} {s : GeneticAlgorithm} (h : InSync env s) :
    Descending s.mFitnessData := by
  unfold InSync at h
  rw [h]
  exact stdSort_descending _

theorem mem_fitnessTable (env : Env) (s : GeneticAlgorithm) (e : FitnessData) :
    e ∈ fitnessTable env s ↔
      e.index < s.mFitnessData.length ∧ e.fitness = env.fitness (geneSlice s e.index) := by
  unfold fitnessTable
  simp only [List.mem_map, List.mem_range]
  constructor
  · rintro ⟨i, hi, rfl⟩
    exact ⟨hi, rfl⟩
  · rintro ⟨hi, hf⟩
    refine ⟨e.index, hi, ?_⟩
    cases e
    simp_all

/-- Every entry of a table in sync names an individual and carries its present fitness. -/
theorem InSync.mem {env : Env} {s : GeneticAlgorithm} (h : InSync env s) (e : FitnessData) :
    e ∈ s.mFitnessData ↔
      e.index < s.mFitnessData.length ∧ e.fitness = env.fitness (geneSlice s e.index) := by
  rw [← mem_fitnessTable]
  unfold InSync at h
  conv_lhs => rw [h]
  exact (stdSort_perm _).mem_iff

/-- The entry at rank position 0 of a table in sync carries the greatest fitness. -/
theorem InSync.head_max {env : Env} {s : GeneticAlgorithm} (h : InSync env s)
    (best : FitnessData) (hbest : readAt s.mFitnessData 0 = Except.ok best) :
    ∀ i, i < s.mFitnessData.length → env.fitness (geneSlice s i) ≤ best.fitness := by
  intro i hi
  rw [readAt_eq_ok] at hbest
  have hmem : (⟨i, env.fitness (geneSlice s i)⟩ : FitnessData) ∈ s.mFitnessData :=
    (h.mem _).2 ⟨hi, rfl⟩
  have hpw : s.mFitnessData.Pairwise (fun a b => b.fitness ≤ a.fitness) := by
    unfold InSync at h
    rw [h]
    exact stdSort_pairwise _
  cases ht : s.mFitnessData with
  | nil => rw [ht] at hi; simp at hi
  | cons e rest =>
      rw [ht] at hbest hmem hpw
      simp only [List.get?_cons_zero, Option.some.injEq] at hbest
      subst hbest
      rcases List.mem_cons.1 hmem with heq | hin
      · rw [← heq]
      · exact List.rel_of_pairwise_cons hpw hin

theorem construct_spec (env : Env) (initialValues : List GAValue)
    (populationSize epochs numParents numGenesToModify : Nat) (s : GeneticAlgorithm)
    (h : construct env initialValues populationSize epochs numParents numGenesToModify
      = Except.ok s) :
    s.mSolutions = (List.replicate populationSize initialValues).flatten ∧
    s.mValueCount = initialValues.length ∧ s.mCurrentEpoch = 0 ∧ s.mEpochs = epochs ∧
    s.mNumParents = numParents ∧
    s.mNumGenesToModify = min (max 1 numGenesToModify) initialValues.length ∧
    s.mFitnessData.length = populationSize ∧ InSync env s ∧ StoreSize s := by
  unfold construct at h
  simp only [bind_eq_ok, pure_eq_ok] at h
  obtain ⟨calls, _, rfl⟩ := h
  refine ⟨rfl, rfl, rfl, rfl, rfl, rfl, ?_, evaluate_inSync env _, ?_⟩
  · rw [evaluate_length]
    simp
  · unfold StoreSize
    rw [evaluate_length]
    simp [evaluateFitnessFunction, List.length_flatten]

/-- What `k` calls of `advance` do to the members, from any state. -/
theorem advanceTimes_spec (env : Env) (k : Nat) :
    ∀ (s s' : GeneticAlgorithm) (flags : List Bool),
      advanceTimes env k s = Except.ok (flags, s') →
      s'.mCurrentEpoch = s.mCurrentEpoch + k ∧
      flags = (List.range k).map (fun j => decide (s.mCurrentEpoch + j + 1 < s.mEpochs)) ∧
      s'.mEpochs = s.mEpochs ∧ s'.mValueCount = s.mValueCount ∧
      s'.mNumParents = s.mNumParents ∧ s'.mNumGenesToModify = s.mNumGenesToModify ∧
      s'.mSolutions.length = s.mSolutions.length ∧
      s'.mFitnessData.length = s.mFitnessData.length ∧
      (InSync env s → InSync env s') := by
  induction k with
  | zero =>
      intro s s' flags h
      simp only [advanceTimes, pure_eq_ok, Prod.mk.injEq] at h
      obtain ⟨rfl, rfl⟩ := h
      simp
  | succ k ih =>
      intro s s' flags h
      simp only [advanceTimes, bind_eq_ok, pure_eq_ok] at h
      obtain ⟨⟨fl, s1⟩, h1, ⟨b, s2⟩, h2, h3⟩ := h
      simp only [Prod.mk.injEq] at h3
      obtain ⟨rfl, rfl⟩ := h3
      obtain ⟨a1, a2, a3, a4, a5, a6, a7, a8, a9⟩ := ih s s1 fl h1
      obtain ⟨b1, b2, b3, b4, b5, b6, b7, b8, b9⟩ := advance_spec env s1 s2 b h2
      refine ⟨by omega, ?_, b3.trans a3, b4.trans a4, b5.trans a5, b6.trans a6, b7.trans a7,
        b8.trans a8, fun hs => b9 (a9 hs)⟩
      rw [List.range_succ, List.map_append, a2, b2, a1, a3]
      simp

/-! ## Indices and bands -/

/-- An `int` expression whose exact result is an `int` has that result. -/
theorem wrapInt_of_range (x : Int) (h1 : -2 ^ 31 ≤ x) (h2 : x < 2 ^ 31) : wrapInt x = x := by
  unfold wrapInt Int.bmod
  have h32 : ((2 : Nat) ^ 32 : Nat) = 4294967296 := by norm_num
  have h31 : (2 : Int) ^ 31 = 2147483648 := by norm_num
  rw [h31] at h1 h2
  simp only [h32]
  push_cast
  split <;> omega

/-- The `int` divisor `hi - lo + 1` of `mutate` is 0 for an empty range
`hi = lo - 1` and for the whole `int` range, and otherwise not. -/
theorem wrapInt_divisor_eq_zero (lo hi : Int) (h1 : -2 ^ 31 ≤ lo) (h2 : lo < 2 ^ 31)
    (h3 : -2 ^ 31 ≤ hi) (h4 : hi < 2 ^ 31) :
    wrapInt (hi - lo + 1) = 0 ↔ hi = lo - 1 ∨ (lo = -2 ^ 31 ∧ hi = 2 ^ 31 - 1) := by
  unfold wrapInt Int.bmod
  have h32 : ((2 : Nat) ^ 32 : Nat) = 4294967296 := by norm_num
  have h31 : (2 : Int) ^ 31 = 2147483648 := by norm_num
  rw [h31] at h1 h2 h3 h4 ⊢
  simp only [h32]
  push_cast
  split <;> omega

theorem toInt_of_lt (n : Nat) (h : n < 2 ^ 31) : toInt n = (n : Int) := by
  unfold toInt Int.bmod
  have h2 : ((2 : Nat) ^ 32 : Nat) = 4294967296 := by norm_num
  have h3 : (2 : Nat) ^ 31 = 2147483648 := by norm_num
  rw [h3] at h
  simp only [h2]
  push_cast
  split <;> omega

theorem randMod_of_lt (r n : Nat) (h0 : 0 < n) (h : n < 2 ^ 31) :
    randMod r n = Except.ok (r % n) := by
  unfold randMod
  rw [toInt_of_lt n h]
  have hn : (n : Int) ≠ 0 := by omega
  rw [if_neg hn, Int.tmod_eq_emod (by omega) (by omega)]
  congr 1

theorem sizeSub_of_le (a b : Nat) (hab : b ≤ a) (ha : a < 2 ^ 64) : sizeSub a b = a - b := by
  unfold sizeSub
  have h2 : (2 : Nat) ^ 64 = 18446744073709551616 := by norm_num
  rw [h2] at ha ⊢
  omega

theorem mem_mutateBand (size np i : Nat) (hnp : np ≤ size) (hs : size < 2 ^ 64)
    (h : i ∈ mutateBand size np) : np ≤ i ∧ i < (size - np) / 3 := by
  unfold mutateBand loopRange at h
  simp only [sizeSub_of_le size np hnp hs, List.mem_range'] at h
  obtain ⟨j, hj, rfl⟩ := h
  omega

theorem mem_crossOverBand (size np i : Nat) (hnp : np ≤ size) (hs : size < 2 ^ 64)
    (h : i ∈ crossOverBand size np) :
    i % 2 = 0 ∧ (size - np) / 3 - (size - np) / 3 % 2 ≤ i ∧ i + 1 < 2 * ((size - np) / 3) := by
  unfold crossOverBand loopRange at h
  simp only [sizeSub_of_le size np hnp hs, List.mem_range'] at h
  obtain ⟨j, hj, rfl⟩ := h
  omega

theorem mem_translateBand (size np i : Nat) (hnp : np ≤ size) (hs : size < 2 ^ 64)
    (h : i ∈ translateBand size np) :
    2 * ((size - np) / 3) - 2 * ((size - np) / 3) % 2 ≤ i ∧ i < size - np := by
  unfold translateBand loopRange at h
  simp only [sizeSub_of_le size np hnp hs, List.mem_range'] at h
  obtain ⟨j, hj, rfl⟩ := h
  omega

/-! ## One-gene drivers never leave their containers -/

theorem ensureLimits_sameSlot (fp : FloatOps) (tg g : GAValue) (h : SameSlot tg g) :
    SameSlot tg (ensureLimits fp g) := by
  unfold ensureLimits
  split <;> exact h

theorem mutate_sameSlot (fp : FloatOps) (r : Nat) (tg g : GAValue) (h : SameSlot tg g)
    (hz : tg.dataType = GADataType.Integer → wrapInt (tg.maxValue - tg.minValue + 1) ≠ 0) :
    ∃ g1, mutate fp r g = Except.ok g1 ∧ SameSlot tg g1 := by
  obtain ⟨h1, h2, h3⟩ := h
  have hz1 : g.dataType = GADataType.Integer → wrapInt (g.maxValue - g.minValue + 1) ≠ 0 := by
    rw [h1, h2, h3]
    exact hz
  unfold mutate
  split
  · rename_i hk
    rw [if_neg (hz1 hk)]
    exact ⟨_, rfl, ensureLimits_sameSlot fp tg _ ⟨h1, h2, h3⟩⟩
  · exact ⟨_, rfl, ensureLimits_sameSlot fp tg _ ⟨h1, h2, h3⟩⟩
  · exact ⟨_, rfl, ensureLimits_sameSlot fp tg _ ⟨h1, h2, h3⟩⟩

theorem translate_sameSlot (fp : FloatOps) (r : Nat) (tg g : GAValue) (h : SameSlot tg g) :
    SameSlot tg (translate fp r g) := by
  obtain ⟨h1, h2, h3⟩ := h
  cases hk : g.dataType <;> simp only [translate, hk] <;>
    exact ensureLimits_sameSlot fp tg _ ⟨hk ▸ h1, h2, h3⟩

theorem crossOver_sameSlot (tg a b : GAValue) (ha : SameSlot tg a) (hb : SameSlot tg b) :
    SameSlot tg (crossOver a b).1 ∧ SameSlot tg (crossOver a b).2 :=
  ⟨⟨hb.1, ha.2.1, ha.2.2⟩, ⟨ha.1, hb.2.1, hb.2.2⟩⟩

theorem mem_set_sameSlot (tg g : GAValue) (v : List GAValue) (k : Nat)
    (hv : ∀ x ∈ v, SameSlot tg x) (hg : SameSlot tg g) : ∀ x ∈ v.set k g, SameSlot tg x := by
  intro x hx
  rcases List.mem_or_eq_of_mem_set hx with h | h
  · exact hv x h
  · exact h ▸ hg

theorem OneGene.with_store {tg : GAValue} {pop : Nat} {s : GeneticAlgorithm}
    (h : OneGene tg pop s) (sols : List GAValue) (n : Nat) (hl : sols.length = pop)
    (hs : ∀ g ∈ sols, SameSlot tg g) :
    OneGene tg pop { s with mSolutions := sols, mRandCalls := n } := by
  obtain ⟨p1, p2, p3, p4, _, p6, p7, _, p9⟩ := h
  exact ⟨p1, p2, p3, p4, hl, p6, p7, hs, p9⟩

theorem copyGenes_oneGene (tg : GAValue) (pop : Nat) (s : GeneticAlgorithm) (parent child : Nat)
    (h : OneGene tg pop s) (hp : parent < pop) :
    ∃ s1, copyGenes s parent child = Except.ok s1 ∧ OneGene tg pop s1 ∧
      s1.mRandCalls = s.mRandCalls := by
  have hv := h.1
  have hl := h.2.2.2.2.1
  have hsl := h.2.2.2.2.2.2.2.1
  have hlt : parent < s.mSolutions.length := hl ▸ hp
  refine ⟨{ s with mSolutions := s.mSolutions.set parent (s.mSolutions.get ⟨parent, hlt⟩) },
    ?_, ?_, rfl⟩
  · unfold copyGenes
    rw [hv]
    simp only [List.range_succ, List.range_zero, List.nil_append, List.foldlM_cons,
      List.foldlM_nil, bind_eq_ok, pure_eq_ok, writeAt_eq_ok]
    refine ⟨_, ⟨_, ⟨_, readAt_of_lt _ _ (by simpa using hlt), ?_, rfl⟩, rfl⟩, ?_⟩
    · simpa using hlt
    · simp
  · have := h.with_store (s.mSolutions.set parent (s.mSolutions.get ⟨parent, hlt⟩)) s.mRandCalls
      (by simpa using hl)
      (mem_set_sameSlot tg _ _ _ hsl (hsl _ (List.get_mem _ _ _)))
    exact this


/-- A bind returns when its first part returns and the rest returns on that value. -/
theorem bind_returns {α β : Type} (x : Except Fault α) (f : α → Except Fault β) (P : β → Prop)
    (a : α) (hx : x = Except.ok a) (hf : ∃ b, f a = Except.ok b ∧ P b) :
    ∃ b, (x >>= f) = Except.ok b ∧ P b := by
  obtain ⟨b, hb, hP⟩ := hf
  exact ⟨b, (bind_eq_ok x f b).2 ⟨a, hx, hb⟩, hP⟩

theorem OneGene.parent_lt {tg : GAValue} {pop : Nat} {s : GeneticAlgorithm}
    (h : OneGene tg pop s) : s.mNumParents < 2 ^ 31 :=
  lt_of_le_of_lt h.2.2.1 h.2.2.2.1

theorem OneGene.read_rank {tg : GAValue} {pop : Nat} {s : GeneticAlgorithm}
    (h : OneGene tg pop s) (i : Nat) (hi : i < pop) :
    ∃ e, readAt s.mFitnessData i = Except.ok e ∧ e.index < pop := by
  have hl : i < s.mFitnessData.length := h.2.2.2.2.2.1 ▸ hi
  exact ⟨_, readAt_of_lt _ _ hl, h.2.2.2.2.2.2.1 _ (List.get_mem _ _ _)⟩

theorem OneGene.read_gene {tg : GAValue} {pop : Nat} {s : GeneticAlgorithm}
    (h : OneGene tg pop s) (k : Nat) (hk : k < pop) :
    ∃ g, readAt s.mSolutions k = Except.ok g ∧ SameSlot tg g := by
  have hl : k < s.mSolutions.length := h.2.2.2.2.1 ▸ hk
  exact ⟨_, readAt_of_lt _ _ hl, h.2.2.2.2.2.2.2.1 _ (List.get_mem _ _ _)⟩

theorem pickRandomGene_one (r c : Nat) : pickRandomGene r c 1 = Except.ok c := by
  unfold pickRandomGene
  rw [randMod_of_lt r 1 (by norm_num) (by norm_num)]
  simp [getGeneIndex, bind, Except.bind, pure, Except.pure, Nat.mod_one]

theorem mutateStep_oneGene (env : Env) (tg : GAValue) (pop : Nat) (s : GeneticAlgorithm) (i : Nat)
    (h : OneGene tg pop s) (hi : i < pop) :
    ∃ s', mutateStep env s i = Except.ok s' ∧ OneGene tg pop s' := by
  unfold mutateStep
  simp only [nextRand, pickRandomParent]
  have hmod : env.rand s.mRandCalls % s.mNumParents < pop :=
    lt_of_lt_of_le (Nat.mod_lt _ h.2.1) h.2.2.1
  obtain ⟨parent, hparent, hpl⟩ := h.read_rank _ hmod
  obtain ⟨child, hchild, hcl⟩ := h.read_rank i hi
  have h1 := h.with_store s.mSolutions (s.mRandCalls + 1) h.2.2.2.2.1 h.2.2.2.2.2.2.2.1
  obtain ⟨s1, hs1, hg1, hr1⟩ := copyGenes_oneGene tg pop _ parent.index child.index h1 hpl
  obtain ⟨g, hg, hgs⟩ := hg1.read_gene child.index hcl
  obtain ⟨g1, hm, hg1s⟩ := mutate_sameSlot env.fp (env.rand (s1.mRandCalls + 1)) tg g hgs
    hg1.2.2.2.2.2.2.2.2
  refine bind_returns _ _ _ _ (randMod_of_lt _ _ h.2.1 h.parent_lt) ?_
  refine bind_returns _ _ _ _ hparent ?_
  refine bind_returns _ _ _ _ hchild ?_
  refine bind_returns _ _ _ _ hs1 ?_
  refine bind_returns _ _ _ _ (hg1.1 ▸ pickRandomGene_one _ _) ?_
  refine bind_returns _ _ _ _ hg ?_
  refine bind_returns _ _ _ _ hm ?_
  refine bind_returns _ _ _ _
    ((writeAt_eq_ok _ _ _ _).2 ⟨by rw [hg1.2.2.2.2.1]; exact hcl, rfl⟩) ?_
  exact ⟨_, rfl, hg1.with_store _ _ (by simpa using hg1.2.2.2.2.1)
    (mem_set_sameSlot tg _ _ _ hg1.2.2.2.2.2.2.2.1 hg1s)⟩


theorem translateStep_oneGene (env : Env) (tg : GAValue) (pop : Nat) (s : GeneticAlgorithm)
    (i : Nat) (h : OneGene tg pop s) (hi : i < pop) :
    ∃ s', translateStep env s i = Except.ok s' ∧ OneGene tg pop s' := by
  unfold translateStep
  simp only [nextRand, pickRandomParent]
  have hmod : env.rand s.mRandCalls % s.mNumParents < pop :=
    lt_of_lt_of_le (Nat.mod_lt _ h.2.1) h.2.2.1
  obtain ⟨parent, hparent, hpl⟩ := h.read_rank _ hmod
  obtain ⟨child, hchild, hcl⟩ := h.read_rank i hi
  have h1 := h.with_store s.mSolutions (s.mRandCalls + 1) h.2.2.2.2.1 h.2.2.2.2.2.2.2.1
  obtain ⟨s1, hs1, hg1, hr1⟩ := copyGenes_oneGene tg pop _ parent.index child.index h1 hpl
  obtain ⟨g, hg, hgs⟩ := hg1.read_gene child.index hcl
  refine bind_returns _ _ _ _ (randMod_of_lt _ _ h.2.1 h.parent_lt) ?_
  refine bind_returns _ _ _ _ hparent ?_
  refine bind_returns _ _ _ _ hchild ?_
  refine bind_returns _ _ _ _ hs1 ?_
  refine bind_returns _ _ _ _ (hg1.1 ▸ pickRandomGene_one _ _) ?_
  refine bind_returns _ _ _ _ hg ?_
  refine bind_returns _ _ _ _
    ((writeAt_eq_ok _ _ _ _).2 ⟨by rw [hg1.2.2.2.2.1]; exact hcl, rfl⟩) ?_
  exact ⟨_, rfl, hg1.with_store _ _ (by simpa using hg1.2.2.2.2.1)
    (mem_set_sameSlot tg _ _ _ hg1.2.2.2.2.2.2.2.1 (translate_sameSlot env.fp _ tg g hgs))⟩

theorem crossOverStep_oneGene (env : Env) (tg : GAValue) (pop : Nat) (s : GeneticAlgorithm)
    (i : Nat) (h : OneGene tg pop s) (hi : i + 1 < pop) :
    ∃ s', crossOverStep env s i = Except.ok s' ∧ OneGene tg pop s' := by
  unfold crossOverStep
  simp only [nextRand, pickRandomParent]
  have hmod : env.rand s.mRandCalls % s.mNumParents < pop :=
    lt_of_lt_of_le (Nat.mod_lt _ h.2.1) h.2.2.1
  obtain ⟨parent, hparent, hpl⟩ := h.read_rank _ hmod
  obtain ⟨child, hchild, hcl⟩ := h.read_rank i (by omega)
  obtain ⟨child2, hchild2, hcl2⟩ := h.read_rank (i + 1) hi
  have h1 := h.with_store s.mSolutions (s.mRandCalls + 1) h.2.2.2.2.1 h.2.2.2.2.2.2.2.1
  obtain ⟨s1, hs1, hg1, hr1⟩ := copyGenes_oneGene tg pop _ parent.index child.index h1 hpl
  obtain ⟨s2, hs2, hg2, hr2⟩ := copyGenes_oneGene tg pop _ parent.index child2.index hg1 hpl
  obtain ⟨v1, hv1, hv1s⟩ := hg2.read_gene child.index hcl
  have hidx : getGeneIndex child2.index s2.mValueCount (child.index % s2.mValueCount)
      = child2.index := by
    rw [hg2.1]
    simp [getGeneIndex, Nat.mod_one]
  obtain ⟨v2, hv2, hv2s⟩ := hg2.read_gene child2.index hcl2
  obtain ⟨hc1, hc2⟩ := crossOver_sameSlot tg v1 v2 hv1s hv2s
  refine bind_returns _ _ _ _ (randMod_of_lt _ _ h.2.1 h.parent_lt) ?_
  refine bind_returns _ _ _ _ hparent ?_
  refine bind_returns _ _ _ _ hchild ?_
  refine bind_returns _ _ _ _ hchild2 ?_
  refine bind_returns _ _ _ _ hs1 ?_
  refine bind_returns _ _ _ _ hs2 ?_
  refine bind_returns _ _ _ _ (hg2.1 ▸ pickRandomGene_one _ _) ?_
  refine bind_returns _ _ _ _ hv1 ?_
  rw [hidx]
  refine bind_returns _ _ _ _ hv2 ?_
  refine bind_returns _ _ _ _
    ((writeAt_eq_ok _ _ _ _).2 ⟨by rw [hg2.2.2.2.2.1]; exact hcl, rfl⟩) ?_
  refine bind_returns _ _ _ _
    ((writeAt_eq_ok _ _ _ _).2 ⟨by rw [List.length_set, hg2.2.2.2.2.1]; exact hcl2, rfl⟩) ?_
  exact ⟨_, rfl, hg2.with_store _ _ (by simpa using hg2.2.2.2.2.1)
    (mem_set_sameSlot tg _ _ _
      (mem_set_sameSlot tg _ _ _ hg2.2.2.2.2.2.2.2.1 hc1) hc2)⟩

theorem evaluate_oneGene (env : Env) (tg : GAValue) (pop : Nat) (s : GeneticAlgorithm)
    (h : OneGene tg pop s) : OneGene tg pop (evaluateFitnessFunction env s) := by
  obtain ⟨p1, p2, p3, p4, p5, p6, p7, p8, p9⟩ := h
  refine ⟨p1, p2, p3, p4, p5, (evaluate_length env s).trans p6, ?_, p8, p9⟩
  intro e he
  have hin : e ∈ fitnessTable env s := (stdSort_perm _).mem_iff.1 he
  exact p6 ▸ ((mem_fitnessTable env s e).1 hin).1

theorem update_oneGene (env : Env) (tg : GAValue) (pop : Nat) (s : GeneticAlgorithm)
    (h : OneGene tg pop s) : ∃ s', update env s = Except.ok s' ∧ OneGene tg pop s' := by
  have hnp : s.mNumParents ≤ s.mFitnessData.length := h.2.2.2.2.2.1 ▸ h.2.2.1
  have hlen : s.mFitnessData.length = pop := h.2.2.2.2.2.1
  have hsz : s.mFitnessData.length < 2 ^ 64 := by
    have h31 : pop < 2 ^ 31 := h.2.2.2.1
    have : (2 : Nat) ^ 31 < 2 ^ 64 := by norm_num
    omega
  obtain ⟨s1, h1, hg1, hn1⟩ := foldlM_returns
    (fun t => OneGene tg pop t ∧ t.mNumParents = s.mNumParents) (mutateStep env)
    (mutateBand s.mFitnessData.length s.mNumParents)
    (fun t i hi ht => by
      have hb := mem_mutateBand _ _ i hnp hsz hi
      obtain ⟨t', ht', hg'⟩ := mutateStep_oneGene env tg pop t i ht.1 (by omega)
      exact ⟨t', ht', hg', ((mutateStep_frame env t t' i ht').2.2.2.2.1).trans ht.2⟩)
    s ⟨h, rfl⟩
  obtain ⟨s2, h2, hg2, hn2⟩ := foldlM_returns
    (fun t => OneGene tg pop t ∧ t.mNumParents = s.mNumParents) (crossOverStep env)
    (crossOverBand s.mFitnessData.length s.mNumParents)
    (fun t i hi ht => by
      have hb := mem_crossOverBand _ _ i hnp hsz hi
      obtain ⟨t', ht', hg'⟩ := crossOverStep_oneGene env tg pop t i ht.1 (by omega)
      exact ⟨t', ht', hg', ((crossOverStep_frame env t t' i ht').2.2.2.2.1).trans ht.2⟩)
    s1 ⟨hg1, hn1⟩
  obtain ⟨s3, h3, hg3, hn3⟩ := foldlM_returns
    (fun t => OneGene tg pop t ∧ t.mNumParents = s.mNumParents) (translateStep env)
    (translateBand s.mFitnessData.length s.mNumParents)
    (fun t i hi ht => by
      have hb := mem_translateBand _ _ i hnp hsz hi
      obtain ⟨t', ht', hg'⟩ := translateStep_oneGene env tg pop t i ht.1 (by omega)
      exact ⟨t', ht', hg', ((translateStep_frame env t t' i ht').2.2.2.2.1).trans ht.2⟩)
    s2 ⟨hg2, hn2⟩
  refine ⟨evaluateFitnessFunction env s3, ?_, evaluate_oneGene env tg pop s3 hg3⟩
  unfold update
  simp only [bind_eq_ok, pure_eq_ok]
  refine ⟨s1, h1, s2, ?_, s3, ?_, rfl⟩
  · rw [hn1]; exact h2
  · rw [hn2]; exact h3

theorem OneGene.bump {tg : GAValue} {pop : Nat} {s : GeneticAlgorithm} (h : OneGene tg pop s) :
    OneGene tg pop { s with mCurrentEpoch := s.mCurrentEpoch + 1 } := h

theorem advance_oneGene (env : Env) (tg : GAValue) (pop : Nat) (s : GeneticAlgorithm)
    (h : OneGene tg pop s) :
    ∃ r, advance env s = Except.ok r ∧ OneGene tg pop r.2 := by
  unfold advance
  obtain ⟨t, ht, hg⟩ := foldlM_returns (fun t => OneGene tg pop t) (fun s _ => update env s)
    (List.range s.mNumGenesToModify) (fun t _ _ ht => update_oneGene env tg pop t ht)
    { s with mCurrentEpoch := s.mCurrentEpoch + 1 } h.bump
  refine bind_returns _ _ _ _ ht ?_
  split
  · exact ⟨_, rfl, hg⟩
  · exact ⟨_, rfl, hg⟩

theorem advanceTimes_oneGene (env : Env) (tg : GAValue) (pop : Nat) (k : Nat) :
    ∀ s, OneGene tg pop s → ∃ r, advanceTimes env k s = Except.ok r ∧ OneGene tg pop r.2 := by
  induction k with
  | zero =>
      intro s h
      exact ⟨([], s), rfl, h⟩
  | succ k ih =>
      intro s h
      obtain ⟨⟨flags, s1⟩, h1, hg1⟩ := ih s h
      obtain ⟨⟨b, s2⟩, h2, hg2⟩ := advance_oneGene env tg pop s1 hg1
      simp only [advanceTimes]
      refine bind_returns _ _ _ _ h1 ?_
      refine bind_returns _ _ _ _ h2 ?_
      exact ⟨_, rfl, hg2⟩

theorem mutate_range_ne_zero (fp : FloatOps) (r : Nat) (g g1 : GAValue)
    (h : mutate fp r g = Except.ok g1) (hk : g.dataType = GADataType.Integer) :
    wrapInt (g.maxValue - g.minValue + 1) ≠ 0 := by
  intro hz
  unfold mutate at h
  rw [hk] at h
  simp only [hz, if_true] at h
  exact absurd h (by simp)

theorem construct_oneGene (env : Env) (tg : GAValue)
    (populationSize epochs numParents numGenesToModify : Nat) (s : GeneticAlgorithm)
    (h : construct env [tg] populationSize epochs numParents numGenesToModify = Except.ok s)
    (h0 : 0 < numParents) (h1 : numParents ≤ populationSize) (h2 : populationSize < 2 ^ 31) :
    OneGene tg populationSize s := by
  obtain ⟨c1, c2, _, _, c5, _, c7, c8, c9⟩ := construct_spec env _ _ _ _ _ s h
  refine ⟨c2, c5 ▸ h0, c5 ▸ h1, h2, ?_, c7, ?_, ?_, ?_⟩
  · unfold StoreSize at c9
    rw [c9, c7, c2]
    simp
  · intro e he
    exact c7 ▸ ((c8.mem e).1 he).1
  · intro g hg
    rw [c1] at hg
    obtain ⟨l, hl, hgl⟩ := List.mem_flatten.1 hg
    obtain ⟨_, rfl⟩ := List.mem_replicate.1 hl
    rw [List.mem_singleton] at hgl
    rw [hgl]
    exact ⟨rfl, rfl, rfl⟩
  · intro hk
    unfold construct at h
    simp only [bind_eq_ok, pure_eq_ok] at h
    obtain ⟨calls, hcalls, _⟩ := h
    obtain ⟨n, rfl⟩ : ∃ n, populationSize = n + 1 := ⟨populationSize - 1, by omega⟩
    rw [List.replicate_succ, List.flatten_cons, List.singleton_append, List.foldlM_cons,
      bind_eq_ok] at hcalls
    obtain ⟨a, ha, _⟩ := hcalls
    rw [bind_eq_ok] at ha
    obtain ⟨g1, hg1, _⟩ := ha
    exact mutate_range_ne_zero env.fp _ tg g1 hg1 hk

/-! ## Claims -/

/-- C1: the `k`-th call of `advance` after construction returns `true` exactly
when `k < epochs`, and after `k` calls the epoch counter is `k`: whenever the
`k` calls return, the counter is `k` and the flag of call `j + 1` is
`j + 1 < epochs`, for every `j < k` (so `false` from call `epochs` on); and
over a one-gene template with `0 < numParents ≤ populationSize < 2 ^ 31` the
`k` calls do return, whatever the draws and the fitness callback. -/
theorem advance_flag_iff (env : Env) (initialValues : List GAValue)
    (populationSize epochs numParents numGenesToModify k : Nat) (s0 : GeneticAlgorithm)
    (h0 : construct env initialValues populationSize epochs numParents numGenesToModify
      = Except.ok s0) :
    (∀ flags s, advanceTimes env k s0 = Except.ok (flags, s) →
      s.mCurrentEpoch = k ∧ flags.length = k ∧
      ∀ j, j < k → flags.get? j = some (decide (j + 1 < epochs))) ∧
    (initialValues.length = 1 → 0 < numParents → numParents ≤ populationSize →
      populationSize < 2 ^ 31 → ∃ flags s, advanceTimes env k s0 = Except.ok (flags, s)) := by
  obtain ⟨_, _, c3, c4, _⟩ := construct_spec env _ _ _ _ _ s0 h0
  constructor
  · intro flags s h
    obtain ⟨a1, a2, _⟩ := advanceTimes_spec env k s0 s flags h
    rw [c3, c4] at a2
    rw [c3] at a1
    refine ⟨by omega, by simp [a2], ?_⟩
    intro j hj
    rw [a2]
    simp [List.getElem?_range hj]
  · intro hlen hp0 hp1 hp2
    obtain ⟨tg, rfl⟩ := List.length_eq_one.1 hlen
    obtain ⟨⟨flags, s⟩, hr, _⟩ := advanceTimes_oneGene env tg populationSize k s0
      (construct_oneGene env tg _ _ _ _ s0 h0 hp0 hp1 hp2)
    exact ⟨flags, s, hr⟩

theorem advance_flag_iff_witness :
    construct zeroDrawEnv scenarioTemplate 4 3 1 1 = Except.ok scenarioStart ∧
    ((∀ flags s, advanceTimes zeroDrawEnv 3 scenarioStart = Except.ok (flags, s) →
      s.mCurrentEpoch = 3 ∧ flags.length = 3 ∧
      ∀ j, j < 3 → flags.get? j = some (decide (j + 1 < 3))) ∧
    (scenarioTemplate.length = 1 → 0 < 1 → 1 ≤ 4 →
      4 < 2 ^ 31 → ∃ flags s, advanceTimes zeroDrawEnv 3 scenarioStart = Except.ok (flags, s))) :=
  ⟨rfl, advance_flag_iff zeroDrawEnv scenarioTemplate 4 3 1 1 3 scenarioStart rfl⟩

/-- C2: after construction and after every `advance` call the Ranking Table has
`populationSize` entries in descending fitness order (`fitness[i] ≥ fitness[j]`
for all rank positions `i < j`), and one update pass from any state of the
driver leaves the table, at its size, in descending fitness order. -/
theorem ranking_descending (env : Env) (initialValues : List GAValue)
    (populationSize epochs numParents numGenesToModify k : Nat) (s0 : GeneticAlgorithm)
    (h0 : construct env initialValues populationSize epochs numParents numGenesToModify
      = Except.ok s0) :
    (∀ flags s, advanceTimes env k s0 = Except.ok (flags, s) →
      s.mFitnessData.length = populationSize ∧ Descending s.mFitnessData) ∧
    (∀ s s', update env s = Except.ok s' →
      s'.mFitnessData.length = s.mFitnessData.length ∧ Descending s'.mFitnessData) := by
  obtain ⟨_, _, _, _, _, _, c7, c8, _⟩ := construct_spec env _ _ _ _ _ s0 h0
  constructor
  · intro flags s h
    obtain ⟨_, _, _, _, _, _, _, a8, a9⟩ := advanceTimes_spec env k s0 s flags h
    exact ⟨a8.trans c7, (a9 c8).descending⟩
  · intro s s' h
    obtain ⟨hk, hs⟩ := update_kept env s s' h
    exact ⟨hk.2.2.2.2.2.2, hs.descending⟩

theorem ranking_descending_witness :
    construct zeroDrawEnv scenarioTemplate 4 3 1 1 = Except.ok scenarioStart ∧
    ((∀ flags s, advanceTimes zeroDrawEnv 2 scenarioStart = Except.ok (flags, s) →
      s.mFitnessData.length = 4 ∧ Descending s.mFitnessData) ∧
    (∀ s s', update zeroDrawEnv s = Except.ok s' →
      s'.mFitnessData.length = s.mFitnessData.length ∧ Descending s'.mFitnessData)) :=
  ⟨rfl, ranking_descending zeroDrawEnv scenarioTemplate 4 3 1 1 2 scenarioStart rfl⟩

/-- The state reached by calls of `advance` after construction: sizes and ranking. -/
theorem reached_spec (env : Env) (initialValues : List GAValue)
    (populationSize epochs numParents numGenesToModify k : Nat) (s0 s : GeneticAlgorithm)
    (flags : List Bool)
    (h0 : construct env initialValues populationSize epochs numParents numGenesToModify
      = Except.ok s0)
    (hrun : advanceTimes env k s0 = Except.ok (flags, s)) :
    s.mFitnessData.length = populationSize ∧ s.mValueCount = initialValues.length ∧
    s.mSolutions.length = populationSize * initialValues.length ∧ InSync env s := by
  obtain ⟨_, c2, _, _, _, _, c7, c8, c9⟩ := construct_spec env _ _ _ _ _ s0 h0
  obtain ⟨_, _, _, a4, _, _, a7, a8, a9⟩ := advanceTimes_spec env k s0 s flags hrun
  unfold StoreSize at c9
  exact ⟨a8.trans c7, a4.trans c2, by rw [a7, c9, c7, c2], a9 c8⟩

/-- C3: for `populationSize ≥ 1`, after construction and after every `advance`
call, `getBestScore` returns the maximum over all individuals
`i < populationSize` of the fitness callback applied to the present gene slice
`[i * geneCount, i * geneCount + geneCount)` of individual `i`: the value is
attained by an individual and no individual exceeds it. -/
theorem best_score_is_max (env : Env) (initialValues : List GAValue)
    (populationSize epochs numParents numGenesToModify k : Nat) (s0 s : GeneticAlgorithm)
    (flags : List Bool) (hpop : 1 ≤ populationSize)
    (h0 : construct env initialValues populationSize epochs numParents numGenesToModify
      = Except.ok s0)
    (hrun : advanceTimes env k s0 = Except.ok (flags, s)) :
    ∃ m, getBestScore s = Except.ok m ∧
      (∃ i, i < populationSize ∧ m = env.fitness (geneSlice s i)) ∧
      ∀ i, i < populationSize → env.fitness (geneSlice s i) ≤ m := by
  obtain ⟨r1, _, _, r4⟩ := reached_spec env _ _ _ _ _ k s0 s flags h0 hrun
  have hl : 0 < s.mFitnessData.length := by omega
  have hb := readAt_of_lt s.mFitnessData 0 hl
  have hmem := (r4.mem _).1 (List.get_mem s.mFitnessData 0 hl)
  refine ⟨(s.mFitnessData.get ⟨0, hl⟩).fitness, ?_, ⟨_, r1 ▸ hmem.1, hmem.2⟩, ?_⟩
  · unfold getBestScore
    rw [hb]
    rfl
  · intro i hi
    exact r4.head_max _ hb i (r1 ▸ hi)

theorem best_score_is_max_witness :
    1 ≤ 4 ∧ construct zeroDrawEnv scenarioTemplate 4 3 1 1 = Except.ok scenarioStart ∧
    advanceTimes zeroDrawEnv 1 scenarioStart = Except.ok ([true], scenarioAfterOne) ∧
    ∃ m, getBestScore scenarioAfterOne = Except.ok m ∧
      (∃ i, i < 4 ∧ m = zeroDrawEnv.fitness (geneSlice scenarioAfterOne i)) ∧
      ∀ i, i < 4 → zeroDrawEnv.fitness (geneSlice scenarioAfterOne i) ≤ m :=
  ⟨by decide, rfl, rfl,
    best_score_is_max zeroDrawEnv scenarioTemplate 4 3 1 1 1 scenarioStart scenarioAfterOne
      [true] (by decide) rfl rfl⟩

/-- C4: for `populationSize ≥ 1`, after construction and after any number of
`advance` calls, `getBestSolution` returns exactly `geneCount` genes, gene `j`
of the result being gene `j` of the Population Store slice of the individual
named by rank position 0, and the fitness callback applied to the result is
the value `getBestScore` returns. -/
theorem best_solution_is_rank_zero (env : Env) (initialValues : List GAValue)
    (populationSize epochs numParents numGenesToModify k : Nat) (s0 s : GeneticAlgorithm)
    (flags : List Bool) (hpop : 1 ≤ populationSize)
    (h0 : construct env initialValues populationSize epochs numParents numGenesToModify
      = Except.ok s0)
    (hrun : advanceTimes env k s0 = Except.ok (flags, s)) :
    ∃ best v s', readAt s.mFitnessData 0 = Except.ok best ∧
      getBestSolution s = Except.ok (v, s') ∧ v.length = initialValues.length ∧
      (∀ j, j < initialValues.length →
        v.get? j = s.mSolutions.get? (best.index * initialValues.length + j)) ∧
      getBestScore s = Except.ok (env.fitness v) := by
  obtain ⟨r1, r2, r3, r4⟩ := reached_spec env _ _ _ _ _ k s0 s flags h0 hrun
  have hl : 0 < s.mFitnessData.length := by omega
  have hb := readAt_of_lt s.mFitnessData 0 hl
  have hmem := (r4.mem _).1 (List.get_mem s.mFitnessData 0 hl)
  have hidx : (s.mFitnessData.get ⟨0, hl⟩).index < populationSize := r1 ▸ hmem.1
  have hfit : (s.mFitnessData.get ⟨0, hl⟩).index * s.mValueCount + s.mValueCount
      ≤ s.mSolutions.length := by
    rw [r3, r2]
    calc (s.mFitnessData.get ⟨0, hl⟩).index * initialValues.length + initialValues.length
        = ((s.mFitnessData.get ⟨0, hl⟩).index + 1) * initialValues.length := by ring
      _ ≤ populationSize * initialValues.length := Nat.mul_le_mul_right _ hidx
  refine ⟨s.mFitnessData.get ⟨0, hl⟩, geneSlice s (s.mFitnessData.get ⟨0, hl⟩).index,
    { s with mBestSolution := geneSlice s (s.mFitnessData.get ⟨0, hl⟩).index }, hb, ?_, ?_, ?_,
    ?_⟩
  · unfold getBestSolution
    rw [hb]
    simp only [bind, Except.bind]
    rw [if_pos hfit]
    rfl
  · unfold geneSlice
    rw [List.length_take, List.length_drop, r2]
    rw [r2] at hfit
    omega
  · intro j hj
    unfold geneSlice
    rw [List.get?_eq_getElem?, List.get?_eq_getElem?, List.getElem?_take_of_lt (r2 ▸ hj),
      List.getElem?_drop, r2]
  · unfold getBestScore
    rw [hb, ← hmem.2]
    rfl

theorem best_solution_is_rank_zero_witness :
    1 ≤ 4 ∧ construct zeroDrawEnv scenarioTemplate 4 3 1 1 = Except.ok scenarioStart ∧
    advanceTimes zeroDrawEnv 1 scenarioStart = Except.ok ([true], scenarioAfterOne) ∧
    ∃ best v s', readAt scenarioAfterOne.mFitnessData 0 = Except.ok best ∧
      getBestSolution scenarioAfterOne = Except.ok (v, s') ∧ v.length = scenarioTemplate.length ∧
      (∀ j, j < scenarioTemplate.length →
        v.get? j = scenarioAfterOne.mSolutions.get? (best.index * scenarioTemplate.length + j)) ∧
      getBestScore scenarioAfterOne = Except.ok (zeroDrawEnv.fitness v) :=
  ⟨by decide, rfl, rfl,
    best_solution_is_rank_zero zeroDrawEnv scenarioTemplate 4 3 1 1 1 scenarioStart
      scenarioAfterOne [true] (by decide) rfl rfl⟩

/-- C5 (failing input): over the two-gene Integer template whose genes are
inside their bounds, population 4, 1 parent and all draws 0, the first
`advance` call returns and leaves gene 0 of individual 0 with value 5 under the
stored bounds [0, 0]: `copyGenes` put a copy of gene 1 (bounds [5, 5]) into
gene 0 of individual 1, and `crossOver` then exchanged the values of the two
gene-0 slots without their bounds. -/
theorem step_breaks_bounds :
    (∀ g ∈ twoGeneTemplate, g.dataType = GADataType.Integer ∧
      g.minValue ≤ g.numberValue ∧ g.numberValue ≤ g.maxValue) ∧
    ∃ r, (construct zeroDrawEnv twoGeneTemplate 4 3 1 1 >>= advance zeroDrawEnv)
        = Except.ok r ∧
      r.2.mSolutions.get? 0 = some
        { dataType := GADataType.Integer, numberValue := 5, minValue := 0, maxValue := 0 } :=
  ⟨by decide, _, rfl, by decide⟩

/-- C6 (failing input): in the scenario after one `advance` call, rank position
0 (below `numParents = 1`) names individual 2, whose gene is 6; the next update
pass returns and leaves individual 2 with gene 5: the crossover loop runs on
rank positions 0 and 1 and exchanges the elite individual's gene with that of
the individual at rank position 1. -/
theorem update_overwrites_elite :
    construct zeroDrawEnv scenarioTemplate 4 3 1 1 = Except.ok scenarioStart ∧
    advanceTimes zeroDrawEnv 1 scenarioStart = Except.ok ([true], scenarioAfterOne) ∧
    scenarioAfterOne.mNumParents = 1 ∧
    (scenarioAfterOne.mFitnessData.get? 0).map (fun e => e.index) = some 2 ∧
    (geneSlice scenarioAfterOne 2).map (fun g => g.numberValue) = [6] ∧
    ∃ s, update zeroDrawEnv scenarioAfterOne = Except.ok s ∧
      (geneSlice s 2).map (fun g => g.numberValue) = [5] :=
  ⟨rfl, rfl, rfl, by decide, by decide, _, rfl, by decide⟩

/-- C7 (failing input): with `populationSize = 4` and `numParents = 1` (so
`t = 1`) the mutation loop visits no rank position, the crossover loop visits
the pair of rank positions (0, 1) and the translation loop visits rank position
2: the parent rank 0 is a child target and the non-parent rank 3 is never one. -/
theorem bands_miss_non_parents :
    mutateBand 4 1 = [] ∧ crossOverBand 4 1 = [0] ∧ translateBand 4 1 = [2] :=
  ⟨by decide, by decide, by decide⟩

/-- C8 (failing input): on the store (1, 2 | 3, 4) with two genes per
individual, `copyGenes 0 1` returns the store (1, 2 | 2, 4): gene 0 of the child
is gene 1 of the parent and gene 1 of the child is not written. -/
theorem copyGenes_misses_child :
    ∃ s, copyGenes twoByTwo 0 1 = Except.ok s ∧
      s.mSolutions = [plainGene 1, plainGene 2, plainGene 2, plainGene 4] ∧
      geneSlice twoByTwo 0 = [plainGene 1, plainGene 2] ∧
      geneSlice s 1 = [plainGene 2, plainGene 4] :=
  ⟨_, rfl, by decide, by decide, by decide⟩

/-- A loop that returns ran every one of its iterations to a return. -/
theorem foldlM_each_returned {σ α : Type} (f : σ → α → Except Fault σ) (l : List α) :
    ∀ s s', l.foldlM f s = Except.ok s' → ∀ a ∈ l, ∃ t t', f t a = Except.ok t' := by
  induction l with
  | nil =>
      intro s s' _ a ha
      simp at ha
  | cons b l ih =>
      intro s s' h a ha
      rw [List.foldlM_cons, bind_eq_ok] at h
      obtain ⟨s1, h1, h2⟩ := h
      rcases List.mem_cons.1 ha with rfl | hin
      · exact ⟨s, s1, h1⟩
      · exact ih s1 s' h2 a hin

theorem mutate_returns (fp : FloatOps) (r : Nat) (g : GAValue)
    (h : g.dataType = GADataType.Integer → wrapInt (g.maxValue - g.minValue + 1) ≠ 0) :
    ∃ g1, mutate fp r g = Except.ok g1 := by
  obtain ⟨g1, hg1, _⟩ := mutate_sameSlot fp r g g ⟨rfl, rfl, rfl⟩ h
  exact ⟨g1, hg1⟩

/-- Over a gene whose bounds are the whole `int` range the divisor
`max - min + 1` of `mutate` wraps to 0: `mutate` faults, and so does the
constructor for any positive population. -/
theorem full_range_divides_by_zero :
    mutate inertFloatOps 7 fullRangeGene = Except.error Fault.divisionByZero ∧
    construct zeroDrawEnv [fullRangeGene] 4 3 1 1 = Except.error Fault.divisionByZero :=
  ⟨rfl, rfl⟩

/-- C9 (counterexample): with `populationSize = 0`, `epochs = 0` and
`numParents = 0` the constructor returns a driver (with an empty store and an
empty Ranking Table) instead of failing. -/
theorem construct_accepts_zeros :
    construct zeroDrawEnv scenarioTemplate 0 0 0 1 = Except.ok
      { mSolutions := [], mFitnessData := [], mBestSolution := [], mValueCount := 1,
        mCurrentEpoch := 0, mEpochs := 0, mNumParents := 0, mNumGenesToModify := 1,
        mRandCalls := 0 } :=
  rfl

/-- C9 (amended): the constructor checks none of `populationSize`, `epochs` and
`numParents`.  It returns a driver exactly when `populationSize = 0` or no
Integer template gene has the `int` divisor `max - min + 1` equal to 0 (the
divisor of the `mutate` call made on a copy of every stored gene), whatever
`epochs` and `numParents` are; the driver it returns has `populationSize`
ranking entries, the given `epochs` and `numParents`, and epoch counter 0; and
for bounds in the `int` range the divisor is 0 exactly when `max = min - 1` or
the bounds are the whole `int` range, where `max - min + 1` wraps to 0. -/
theorem construct_returns_iff (env : Env) (initialValues : List GAValue)
    (populationSize epochs numParents numGenesToModify : Nat) :
    ((∃ s, construct env initialValues populationSize epochs numParents numGenesToModify
        = Except.ok s) ↔
      (populationSize = 0 ∨ ∀ g ∈ initialValues,
        g.dataType = GADataType.Integer → wrapInt (g.maxValue - g.minValue + 1) ≠ 0)) ∧
    (∀ s, construct env initialValues populationSize epochs numParents numGenesToModify
        = Except.ok s →
      s.mFitnessData.length = populationSize ∧ s.mEpochs = epochs ∧
      s.mNumParents = numParents ∧ s.mCurrentEpoch = 0) ∧
    ∀ lo hi : Int, -2 ^ 31 ≤ lo → lo < 2 ^ 31 → -2 ^ 31 ≤ hi → hi < 2 ^ 31 →
      (wrapInt (hi - lo + 1) = 0 ↔ hi = lo - 1 ∨ (lo = -2 ^ 31 ∧ hi = 2 ^ 31 - 1)) := by
  refine ⟨⟨?_, ?_⟩, ?_, wrapInt_divisor_eq_zero⟩
  · rintro ⟨s, h⟩
    by_cases hp : populationSize = 0
    · exact Or.inl hp
    · right
      intro g hg hk
      unfold construct at h
      simp only [bind_eq_ok, pure_eq_ok] at h
      obtain ⟨calls, hcalls, _⟩ := h
      have hmem : g ∈ (List.replicate populationSize initialValues).flatten :=
        List.mem_flatten.2 ⟨initialValues, List.mem_replicate.2 ⟨hp, rfl⟩, hg⟩
      obtain ⟨n, n', hn⟩ := foldlM_each_returned _ _ _ _ hcalls g hmem
      rw [bind_eq_ok] at hn
      obtain ⟨g1, hg1, _⟩ := hn
      exact mutate_range_ne_zero env.fp _ g g1 hg1 hk
  · intro h
    have hall : ∀ g ∈ (List.replicate populationSize initialValues).flatten,
        g.dataType = GADataType.Integer → wrapInt (g.maxValue - g.minValue + 1) ≠ 0 := by
      intro g hg
      obtain ⟨l, hl, hgl⟩ := List.mem_flatten.1 hg
      obtain ⟨hp, rfl⟩ := List.mem_replicate.1 hl
      rcases h with h | h
      · exact absurd h hp
      · exact h g hgl
    obtain ⟨calls, hcalls, _⟩ := foldlM_returns (fun _ : Nat => True)
      (fun (n : Nat) (solution : GAValue) => do
        let _ ← mutate env.fp (env.rand n) solution
        pure (n + 1))
      (List.replicate populationSize initialValues).flatten
      (fun n g hg _ => by
        obtain ⟨g1, hg1⟩ := mutate_returns env.fp (env.rand n) g (hall g hg)
        exact ⟨n + 1, (bind_eq_ok _ _ _).2 ⟨g1, hg1, rfl⟩, trivial⟩)
      0 trivial
    unfold construct
    simp only [bind_eq_ok, pure_eq_ok]
    exact ⟨_, calls, hcalls, rfl⟩
  · intro s h
    obtain ⟨_, _, c3, c4, c5, _, c7, _, _⟩ := construct_spec env _ _ _ _ _ s h
    exact ⟨c7, c4, c5, c3⟩

/-- The value of `getProgress` as an integer quotient, inside and outside the `int` range. -/
theorem getProgress_eq_div (s : GeneticAlgorithm) (h : 1 ≤ s.mEpochs) :
    getProgress s = Except.ok
      (if ((1000 * s.mCurrentEpoch + s.mEpochs) / (10 * s.mEpochs) : Nat) < 2 ^ 31
        then (((1000 * s.mCurrentEpoch + s.mEpochs) / (10 * s.mEpochs) : Nat) : Int)
        else -(2 : Int) ^ 31) ∧
    ⌊(1 / 10 : ℚ) + 100 * (s.mCurrentEpoch : ℚ) / (s.mEpochs : ℚ)⌋
      = ((1000 * s.mCurrentEpoch + s.mEpochs) / (10 * s.mEpochs) : Nat) := by
  have hE : (0 : ℚ) < (s.mEpochs : ℚ) := by exact_mod_cast h
  have hnn : (0 : ℚ) ≤ (1 / 10 : ℚ) + 100 * (s.mCurrentEpoch : ℚ) / (s.mEpochs : ℚ) := by
    positivity
  have hq : (1 / 10 : ℚ) + 100 * (s.mCurrentEpoch : ℚ) / (s.mEpochs : ℚ)
      = ((1000 * s.mCurrentEpoch + s.mEpochs : Nat) : ℚ) / ((10 * s.mEpochs : Nat) : ℚ) := by
    push_cast
    field_simp
    ring
  have hfl : ⌊(1 / 10 : ℚ) + 100 * (s.mCurrentEpoch : ℚ) / (s.mEpochs : ℚ)⌋
      = ((1000 * s.mCurrentEpoch + s.mEpochs) / (10 * s.mEpochs) : Nat) := by
    rw [hq, Rat.floor_natCast_div_natCast]
    norm_cast
  refine ⟨?_, hfl⟩
  have hlt : (1 / 10 : ℚ) + 100 * (s.mCurrentEpoch : ℚ) / (s.mEpochs : ℚ) < (2 : ℚ) ^ 31 ↔
      ((1000 * s.mCurrentEpoch + s.mEpochs) / (10 * s.mEpochs) : Nat) < 2 ^ 31 := by
    constructor
    · intro hh
      have h1 : ⌊(1 / 10 : ℚ) + 100 * (s.mCurrentEpoch : ℚ) / (s.mEpochs : ℚ)⌋
          < (2 : Int) ^ 31 := Int.floor_lt.2 (by push_cast; exact hh)
      rw [hfl] at h1
      exact_mod_cast h1
    · intro hh
      have h1 : ⌊(1 / 10 : ℚ) + 100 * (s.mCurrentEpoch : ℚ) / (s.mEpochs : ℚ)⌋
          < (2 : Int) ^ 31 := by
        rw [hfl]
        exact_mod_cast hh
      have h2 := Int.floor_lt.1 h1
      push_cast at h2
      exact h2
  unfold getProgress doubleToInt
  rw [if_neg (by omega)]
  by_cases hc : ((1000 * s.mCurrentEpoch + s.mEpochs) / (10 * s.mEpochs) : Nat) < 2 ^ 31
  · rw [if_pos hc, if_pos ⟨by linarith [show (0 : ℚ) < (2 : ℚ) ^ 31 by positivity], hlt.2 hc⟩,
      if_pos hnn, hfl]
  · rw [if_neg hc, if_neg (fun hh => hc (hlt.1 hh.2))]

/-- C10 (counterexample): with epoch counter 1 and `epochs = 200`,
`getProgress` returns 0, while `floor(0.5 + 100 * 1 / 200)` is 1; and with
epoch counter 21474837 and `epochs = 1` it returns the least `int`, the
quotient being outside the `int` range. -/
theorem getProgress_not_half_up :
    getProgress (atEpoch 1 200) = Except.ok 0 ∧
    ⌊(1 / 2 : ℚ) + 100 * ((1 : Nat) : ℚ) / ((200 : Nat) : ℚ)⌋ = 1 ∧
    getProgress (atEpoch 21474837 1) = Except.ok (-2147483648) := by
  refine ⟨?_, ?_, ?_⟩
  · rw [(getProgress_eq_div _ (by decide)).1]
    rfl
  · norm_num
  · rw [(getProgress_eq_div _ (by decide)).1]
    rfl

/-- C10 (amended): for every `epochs ≥ 1` and every epoch counter `c`, with
`q = floor(1/10 + 100 * c / epochs)` in exact rational arithmetic, which is
the integer quotient `(1000 * c + epochs) / (10 * epochs)`: `getProgress`
returns `q` when `q` is an `int` (`q < 2 ^ 31`), and the least `int` when it
is not. -/
theorem getProgress_floor (s : GeneticAlgorithm) (h : 1 ≤ s.mEpochs) :
    (⌊(1 / 10 : ℚ) + 100 * (s.mCurrentEpoch : ℚ) / (s.mEpochs : ℚ)⌋ < 2 ^ 31 →
      getProgress s
        = Except.ok ⌊(1 / 10 : ℚ) + 100 * (s.mCurrentEpoch : ℚ) / (s.mEpochs : ℚ)⌋) ∧
    (2 ^ 31 ≤ ⌊(1 / 10 : ℚ) + 100 * (s.mCurrentEpoch : ℚ) / (s.mEpochs : ℚ)⌋ →
      getProgress s = Except.ok (-2 ^ 31)) ∧
    ⌊(1 / 10 : ℚ) + 100 * (s.mCurrentEpoch : ℚ) / (s.mEpochs : ℚ)⌋
      = ((1000 * s.mCurrentEpoch + s.mEpochs) / (10 * s.mEpochs) : Nat) := by
  obtain ⟨hg, hfl⟩ := getProgress_eq_div s h
  refine ⟨?_, ?_, hfl⟩
  · intro hlt
    rw [hfl] at hlt ⊢
    rw [hg, if_pos (by exact_mod_cast hlt)]
  · intro hge
    rw [hfl] at hge
    have hnlt : ¬ ((1000 * s.mCurrentEpoch + s.mEpochs) / (10 * s.mEpochs) : Nat) < 2 ^ 31 := by
      intro hlt
      have hlt2 : (((1000 * s.mCurrentEpoch + s.mEpochs) / (10 * s.mEpochs) : Nat) : Int)
          < 2 ^ 31 := by exact_mod_cast hlt
      exact absurd hge (not_le.2 hlt2)
    rw [hg, if_neg hnlt]

theorem getProgress_floor_witness :
    1 ≤ (atEpoch 2 3).mEpochs ∧
    ((⌊(1 / 10 : ℚ) + 100 * ((atEpoch 2 3).mCurrentEpoch : ℚ)
          / ((atEpoch 2 3).mEpochs : ℚ)⌋ < 2 ^ 31 →
      getProgress (atEpoch 2 3)
        = Except.ok ⌊(1 / 10 : ℚ) + 100 * ((atEpoch 2 3).mCurrentEpoch : ℚ)
            / ((atEpoch 2 3).mEpochs : ℚ)⌋) ∧
    (2 ^ 31 ≤ ⌊(1 / 10 : ℚ) + 100 * ((atEpoch 2 3).mCurrentEpoch : ℚ)
          / ((atEpoch 2 3).mEpochs : ℚ)⌋ →
      getProgress (atEpoch 2 3) = Except.ok (-2 ^ 31)) ∧
    ⌊(1 / 10 : ℚ) + 100 * ((atEpoch 2 3).mCurrentEpoch : ℚ) / ((atEpoch 2 3).mEpochs : ℚ)⌋
      = ((1000 * (atEpoch 2 3).mCurrentEpoch + (atEpoch 2 3).mEpochs)
          / (10 * (atEpoch 2 3).mEpochs) : Nat)) :=
  ⟨by decide, getProgress_floor (atEpoch 2 3) (by decide)⟩

/-! ## Operators -/

/-- C17: for every pair of genes, `crossOver` gives the first gene the kind and
the value of the second and the second those of the first, leaves `min` and
`max` of both where they are, and applied twice gives back both genes. -/
theorem crossOver_exchanges (a b : GAValue) :
    ((crossOver a b).1.dataType = b.dataType ∧ (crossOver a b).1.numberValue = b.numberValue ∧
      (crossOver a b).2.dataType = a.dataType ∧ (crossOver a b).2.numberValue = a.numberValue) ∧
    ((crossOver a b).1.minValue = a.minValue ∧ (crossOver a b).1.maxValue = a.maxValue ∧
      (crossOver a b).2.minValue = b.minValue ∧ (crossOver a b).2.maxValue = b.maxValue) ∧
    crossOver (crossOver a b).1 (crossOver a b).2 = (a, b) :=
  ⟨⟨rfl, rfl, rfl, rfl⟩, ⟨rfl, rfl, rfl, rfl⟩, rfl⟩

/-- C18: for an Integer gene with bounds in the `int` range, `min ≤ max` and
`max - min + 1` representable as an `int`, and a draw `r`, `mutate` returns the
gene with `current = min + r mod (max - min + 1)` and kind, `min` and `max` as
before; that value lies in `[min, max]` whatever `current` was. -/
theorem mutate_integer (fp : FloatOps) (r : Nat) (g : GAValue)
    (hk : g.dataType = GADataType.Integer) (hb : g.minValue ≤ g.maxValue)
    (hlo : -2 ^ 31 ≤ g.minValue) (hhi : g.maxValue < 2 ^ 31)
    (hrep : g.maxValue - g.minValue + 1 < 2 ^ 31) :
    mutate fp r g = Except.ok
      { g with numberValue := g.minValue + (r : Int) % (g.maxValue - g.minValue + 1) } ∧
    g.minValue ≤ g.minValue + (r : Int) % (g.maxValue - g.minValue + 1) ∧
    g.minValue + (r : Int) % (g.maxValue - g.minValue + 1) ≤ g.maxValue := by
  have hpos : 0 < g.maxValue - g.minValue + 1 := by omega
  have h0 : 0 ≤ (r : Int) % (g.maxValue - g.minValue + 1) := Int.emod_nonneg _ (by omega)
  have h1 : (r : Int) % (g.maxValue - g.minValue + 1) < g.maxValue - g.minValue + 1 :=
    Int.emod_lt_of_pos _ hpos
  have h31 : (2 : Int) ^ 31 = 2147483648 := by norm_num
  rw [h31] at hlo hhi hrep
  have hw1 : wrapInt (g.maxValue - g.minValue + 1) = g.maxValue - g.minValue + 1 :=
    wrapInt_of_range _ (by rw [h31]; omega) (by rw [h31]; omega)
  have hw2 : wrapInt (g.minValue + (r : Int) % (g.maxValue - g.minValue + 1))
      = g.minValue + (r : Int) % (g.maxValue - g.minValue + 1) :=
    wrapInt_of_range _ (by rw [h31]; omega) (by rw [h31]; omega)
  refine ⟨?_, by omega, by omega⟩
  unfold mutate
  rw [hk]
  simp only
  rw [hw1, if_neg (by omega), Int.tmod_eq_emod (by omega) (by omega), hw2]
  unfold ensureLimits
  simp only [hk]
  congr 2
  omega

theorem mutate_integer_witness :
    (plainGene 7).dataType = GADataType.Integer ∧
    (plainGene 7).minValue ≤ (plainGene 7).maxValue ∧
    -2 ^ 31 ≤ (plainGene 7).minValue ∧ (plainGene 7).maxValue < 2 ^ 31 ∧
    (plainGene 7).maxValue - (plainGene 7).minValue + 1 < 2 ^ 31 ∧
    (mutate inertFloatOps 125 (plainGene 7) = Except.ok
      { plainGene 7 with
        numberValue := (plainGene 7).minValue
          + ((125 : Nat) : Int) % ((plainGene 7).maxValue - (plainGene 7).minValue + 1) } ∧
    (plainGene 7).minValue ≤ (plainGene 7).minValue
      + ((125 : Nat) : Int) % ((plainGene 7).maxValue - (plainGene 7).minValue + 1) ∧
    (plainGene 7).minValue
      + ((125 : Nat) : Int) % ((plainGene 7).maxValue - (plainGene 7).minValue + 1)
      ≤ (plainGene 7).maxValue) :=
  ⟨rfl, by decide, by decide, by decide, by decide,
    mutate_integer inertFloatOps 125 (plainGene 7) rfl (by decide) (by decide) (by decide)
      (by decide)⟩

/-- C19 (counterexample): the Integer gene with value `2 ^ 31 - 1` and bounds
`[0, 2 ^ 31 - 1]` is inside its bounds; on an even draw `translate` returns it
with value 0, where `min(max(current + 1, min), max)` is `2 ^ 31 - 1`: the
`int` sum `current + 1` wraps to the least `int` and is clamped to `min`. -/
theorem translate_wraps_at_top :
    topGene.dataType = GADataType.Integer ∧ topGene.minValue ≤ topGene.numberValue ∧
    topGene.numberValue ≤ topGene.maxValue ∧
    translate inertFloatOps 0 topGene = { topGene with numberValue := 0 } ∧
    min (max (topGene.numberValue + 1) topGene.minValue) topGene.maxValue = 2147483647 :=
  ⟨rfl, by decide, by decide, by decide, by decide⟩

/-- C19 (amended): for an Integer gene with `min ≤ max` and a draw `r` such
that `current + d` is representable as an `int`, where `d` is `+1` for an even
draw and `-1` otherwise, `translate` returns the gene with
`current = min(max(current + d, min), max)` and kind, `min` and `max` as
before; the new value lies in `[min, max]`, and differs by at most 1 from a
previous value that was in `[min, max]`. -/
theorem translate_integer (fp : FloatOps) (r : Nat) (g : GAValue)
    (hk : g.dataType = GADataType.Integer) (hb : g.minValue ≤ g.maxValue)
    (hlo : -2 ^ 31 ≤ g.numberValue + (if r % 2 = 0 then 1 else -1))
    (hhi : g.numberValue + (if r % 2 = 0 then 1 else -1) < 2 ^ 31) :
    translate fp r g =
      { g with
        numberValue :=
          min (max (g.numberValue + (if r % 2 = 0 then 1 else -1)) g.minValue) g.maxValue } ∧
    g.minValue ≤ (translate fp r g).numberValue ∧
    (translate fp r g).numberValue ≤ g.maxValue ∧
    (g.minValue ≤ g.numberValue → g.numberValue ≤ g.maxValue →
      (translate fp r g).numberValue - g.numberValue ≤ 1 ∧
      g.numberValue - (translate fp r g).numberValue ≤ 1) := by
  have hw := wrapInt_of_range _ hlo hhi
  have heq : translate fp r g =
      { g with
        numberValue :=
          min (max (g.numberValue + (if r % 2 = 0 then 1 else -1)) g.minValue) g.maxValue } := by
    unfold translate
    simp only [hk]
    unfold ensureLimits
    simp only [hk, hw]
  refine ⟨heq, ?_, ?_, ?_⟩
  · rw [heq]
    simp only
    omega
  · rw [heq]
    simp only
    omega
  · intro h1 h2
    rw [heq]
    simp only
    split <;> omega

theorem translate_integer_witness :
    (plainGene 100).dataType = GADataType.Integer ∧
    (plainGene 100).minValue ≤ (plainGene 100).maxValue ∧
    -2 ^ 31 ≤ (plainGene 100).numberValue + (if 4 % 2 = 0 then 1 else -1) ∧
    (plainGene 100).numberValue + (if 4 % 2 = 0 then 1 else -1) < 2 ^ 31 ∧
    (translate inertFloatOps 4 (plainGene 100) =
      { plainGene 100 with
        numberValue :=
          min (max ((plainGene 100).numberValue + (if 4 % 2 = 0 then 1 else -1))
            (plainGene 100).minValue) (plainGene 100).maxValue } ∧
    (plainGene 100).minValue ≤ (translate inertFloatOps 4 (plainGene 100)).numberValue ∧
    (translate inertFloatOps 4 (plainGene 100)).numberValue ≤ (plainGene 100).maxValue ∧
    ((plainGene 100).minValue ≤ (plainGene 100).numberValue →
      (plainGene 100).numberValue ≤ (plainGene 100).maxValue →
      (translate inertFloatOps 4 (plainGene 100)).numberValue - (plainGene 100).numberValue ≤ 1 ∧
      (plainGene 100).numberValue - (translate inertFloatOps 4 (plainGene 100)).numberValue
        ≤ 1)) :=
  ⟨rfl, by decide, by decide, by decide,
    translate_integer inertFloatOps 4 (plainGene 100) rfl (by decide) (by decide) (by decide)⟩

/-! ## Progress, pass count and the initial store -/

/-- C11 (counterexample): with epoch counter 999 and `epochs = 1000`,
`getProgress` returns 100 although the counter has not reached `epochs`. -/
theorem getProgress_hundred_early :
    getProgress (atEpoch 999 1000) = Except.ok 100 ∧
    (atEpoch 999 1000).mCurrentEpoch ≠ (atEpoch 999 1000).mEpochs := by
  constructor
  · rw [(getProgress_eq_div _ (by decide)).1]
    rfl
  · decide

/-- C11 (amended): for every `epochs ≥ 1` and every epoch counter `c`,
`getProgress` returns 100 exactly when `999 * epochs ≤ 1000 * c < 1009 * epochs`
(that is, `99.9 ≤ 100 * c / epochs < 100.9`); it returns 100 when
`c = epochs`, and for `epochs ≤ 111` only then. -/
theorem getProgress_hundred_iff (s : GeneticAlgorithm) (h : 1 ≤ s.mEpochs) :
    (getProgress s = Except.ok 100 ↔
      999 * s.mEpochs ≤ 1000 * s.mCurrentEpoch ∧ 1000 * s.mCurrentEpoch < 1009 * s.mEpochs) ∧
    (s.mCurrentEpoch = s.mEpochs → getProgress s = Except.ok 100) ∧
    (s.mEpochs ≤ 111 → (getProgress s = Except.ok 100 ↔ s.mCurrentEpoch = s.mEpochs)) := by
  have hpos : 0 < 10 * s.mEpochs := by omega
  have hiff : getProgress s = Except.ok 100 ↔
      999 * s.mEpochs ≤ 1000 * s.mCurrentEpoch ∧
        1000 * s.mCurrentEpoch < 1009 * s.mEpochs := by
    rw [(getProgress_eq_div s h).1, Except.ok.injEq]
    have hle := @Nat.le_div_iff_mul_le (10 * s.mEpochs) 100
      (1000 * s.mCurrentEpoch + s.mEpochs) hpos
    have hlt := @Nat.div_lt_iff_lt_mul (10 * s.mEpochs)
      (1000 * s.mCurrentEpoch + s.mEpochs) 101 hpos
    generalize (1000 * s.mCurrentEpoch + s.mEpochs) / (10 * s.mEpochs) = q at hle hlt ⊢
    have h31 : (2 : Nat) ^ 31 = 2147483648 := by norm_num
    have h31i : (2 : Int) ^ 31 = 2147483648 := by norm_num
    rw [h31, h31i]
    split <;> omega
  refine ⟨hiff, ?_, ?_⟩
  · intro hc
    rw [hiff]
    omega
  · intro h111
    rw [hiff]
    omega

theorem getProgress_hundred_iff_witness :
    1 ≤ (atEpoch 3 3).mEpochs ∧
    ((getProgress (atEpoch 3 3) = Except.ok 100 ↔
      999 * (atEpoch 3 3).mEpochs ≤ 1000 * (atEpoch 3 3).mCurrentEpoch ∧
        1000 * (atEpoch 3 3).mCurrentEpoch < 1009 * (atEpoch 3 3).mEpochs) ∧
    ((atEpoch 3 3).mCurrentEpoch = (atEpoch 3 3).mEpochs →
      getProgress (atEpoch 3 3) = Except.ok 100) ∧
    ((atEpoch 3 3).mEpochs ≤ 111 →
      (getProgress (atEpoch 3 3) = Except.ok 100 ↔
        (atEpoch 3 3).mCurrentEpoch = (atEpoch 3 3).mEpochs))) :=
  ⟨by decide, getProgress_hundred_iff (atEpoch 3 3) (by decide)⟩

theorem foldlM_const_update (env : Env) {α : Type} (l : List α) :
    ∀ s, l.foldlM (fun s _ => update env s) s = updateTimes env l.length s := by
  induction l with
  | nil => intro s; rfl
  | cons a l ih =>
      intro s
      rw [List.foldlM_cons, List.length_cons]
      simp only [updateTimes]
      congr 1
      funext s1
      exact ih s1

/-- The loop of `advance` is `mNumGenesToModify` update passes. -/
theorem advance_eq_updateTimes (env : Env) (s : GeneticAlgorithm) :
    advance env s =
      (updateTimes env s.mNumGenesToModify { s with mCurrentEpoch := s.mCurrentEpoch + 1 }
        >>= fun t => pure (decide (t.mCurrentEpoch < t.mEpochs), t)) := by
  unfold advance
  simp only
  rw [foldlM_const_update, List.length_range]
  congr 1
  funext t
  by_cases h : t.mCurrentEpoch ≥ t.mEpochs
  · rw [if_pos h]
    have : decide (t.mCurrentEpoch < t.mEpochs) = false := by simpa using h
    rw [this]
  · rw [if_neg h]
    have : decide (t.mCurrentEpoch < t.mEpochs) = true := by simpa using h
    rw [this]

/-- C12 (counterexample): over the empty template the constructor stores 0 as
the number of update passes per step, for the request 1. -/
theorem empty_template_zero_passes :
    ∃ s, construct zeroDrawEnv [] 4 3 1 1 = Except.ok s ∧ s.mNumGenesToModify = 0 :=
  ⟨_, rfl, rfl⟩

/-- C12 (amended): for every non-empty template and every requested
`numGenesToModify`, the constructor stores the request clamped into
`[1, geneCount]` (at least 1, at most `geneCount`, the request itself when it
lies in `[1, geneCount]`); no `advance` call changes the stored value, and
every `advance` call makes exactly that many update passes. -/
theorem passes_clamped (env : Env) (initialValues : List GAValue)
    (populationSize epochs numParents numGenesToModify : Nat) (s0 : GeneticAlgorithm)
    (hne : 1 ≤ initialValues.length)
    (h0 : construct env initialValues populationSize epochs numParents numGenesToModify
      = Except.ok s0) :
    (1 ≤ s0.mNumGenesToModify ∧ s0.mNumGenesToModify ≤ initialValues.length ∧
      (1 ≤ numGenesToModify → numGenesToModify ≤ initialValues.length →
        s0.mNumGenesToModify = numGenesToModify)) ∧
    (∀ k flags s, advanceTimes env k s0 = Except.ok (flags, s) →
      s.mNumGenesToModify = s0.mNumGenesToModify) ∧
    (∀ s, advance env s =
      (updateTimes env s.mNumGenesToModify { s with mCurrentEpoch := s.mCurrentEpoch + 1 }
        >>= fun t => pure (decide (t.mCurrentEpoch < t.mEpochs), t))) := by
  obtain ⟨_, _, _, _, _, c6, _⟩ := construct_spec env _ _ _ _ _ s0 h0
  refine ⟨?_, ?_, advance_eq_updateTimes env⟩
  · rw [c6]
    refine ⟨?_, ?_, ?_⟩
    · omega
    · omega
    · intro h1 h2
      omega
  · intro k flags s h
    exact (advanceTimes_spec env k s0 s flags h).2.2.2.2.2.1

theorem passes_clamped_witness :
    1 ≤ scenarioTemplate.length ∧
    construct zeroDrawEnv scenarioTemplate 4 3 1 1 = Except.ok scenarioStart ∧
    ((1 ≤ scenarioStart.mNumGenesToModify ∧
      scenarioStart.mNumGenesToModify ≤ scenarioTemplate.length ∧
      (1 ≤ 1 → 1 ≤ scenarioTemplate.length → scenarioStart.mNumGenesToModify = 1)) ∧
    (∀ k flags s, advanceTimes zeroDrawEnv k scenarioStart = Except.ok (flags, s) →
      s.mNumGenesToModify = scenarioStart.mNumGenesToModify) ∧
    (∀ s, advance zeroDrawEnv s =
      (updateTimes zeroDrawEnv s.mNumGenesToModify
          { s with mCurrentEpoch := s.mCurrentEpoch + 1 }
        >>= fun t => pure (decide (t.mCurrentEpoch < t.mEpochs), t)))) :=
  ⟨by decide, rfl, passes_clamped zeroDrawEnv scenarioTemplate 4 3 1 1 scenarioStart
    (by decide) rfl⟩

/-- The constructor returns when no Integer template gene has the `int` divisor
`max - min + 1` equal to 0. -/
theorem construct_returns (env : Env) (initialValues : List GAValue)
    (populationSize epochs numParents numGenesToModify : Nat)
    (h : ∀ g ∈ initialValues,
      g.dataType = GADataType.Integer → wrapInt (g.maxValue - g.minValue + 1) ≠ 0) :
    ∃ s, construct env initialValues populationSize epochs numParents numGenesToModify
      = Except.ok s := by
  have hall : ∀ g ∈ (List.replicate populationSize initialValues).flatten,
      g.dataType = GADataType.Integer → wrapInt (g.maxValue - g.minValue + 1) ≠ 0 := by
    intro g hg
    obtain ⟨l, hl, hgl⟩ := List.mem_flatten.1 hg
    obtain ⟨_, rfl⟩ := List.mem_replicate.1 hl
    exact h g hgl
  obtain ⟨calls, hcalls, _⟩ := foldlM_returns (fun _ : Nat => True)
    (fun (n : Nat) (solution : GAValue) => do
      let _ ← mutate env.fp (env.rand n) solution
      pure (n + 1))
    (List.replicate populationSize initialValues).flatten
    (fun n g hg _ => by
      obtain ⟨g1, hg1⟩ := mutate_returns env.fp (env.rand n) g (hall g hg)
      exact ⟨n + 1, (bind_eq_ok _ _ _).2 ⟨g1, hg1, rfl⟩, trivial⟩)
    0 trivial
  unfold construct
  simp only [bind_eq_ok, pure_eq_ok]
  exact ⟨_, calls, hcalls, rfl⟩

/-- Gene `j` of individual `i` in a store of replicated templates. -/
theorem get?_flatten_replicate {α : Type} (l : List α) :
    ∀ (n i j : Nat), i < n → j < l.length →
      (List.replicate n l).flatten.get? (i * l.length + j) = l.get? j := by
  intro n
  induction n with
  | zero => intro i j hi; omega
  | succ n ih =>
      intro i j hi hj
      rw [List.replicate_succ, List.flatten_cons, List.get?_eq_getElem?, List.get?_eq_getElem?]
      cases i with
      | zero =>
          rw [Nat.zero_mul, Nat.zero_add, List.getElem?_append_left hj]
      | succ i =>
          have hge : l.length ≤ (i + 1) * l.length + j := by
            rw [Nat.succ_mul]
            omega
          rw [List.getElem?_append_right hge]
          have hsub : (i + 1) * l.length + j - l.length = i * l.length + j := by
            rw [Nat.succ_mul]
            omega
          rw [hsub]
          have := ih i j (by omega) hj
          rwa [List.get?_eq_getElem?, List.get?_eq_getElem?] at this

/-- C13: immediately after construction the Population Store is the template
replicated `populationSize` times: it has `populationSize * geneCount` genes and
gene `j` of every individual `i` is gene `j` of the template, whatever the
draws of the randomization loop (which works on copies); and the constructor
returns for every template without an Integer gene whose `int` divisor
`max - min + 1` is 0. -/
theorem construct_store (env : Env) (initialValues : List GAValue)
    (populationSize epochs numParents numGenesToModify : Nat) :
    (∀ s, construct env initialValues populationSize epochs numParents numGenesToModify
        = Except.ok s →
      s.mSolutions.length = populationSize * initialValues.length ∧
      s.mSolutions = (List.replicate populationSize initialValues).flatten ∧
      ∀ i j, i < populationSize → j < initialValues.length →
        s.mSolutions.get? (i * initialValues.length + j) = initialValues.get? j) ∧
    ((∀ g ∈ initialValues,
        g.dataType = GADataType.Integer → wrapInt (g.maxValue - g.minValue + 1) ≠ 0) →
      ∃ s, construct env initialValues populationSize epochs numParents numGenesToModify
        = Except.ok s) := by
  constructor
  · intro s h
    obtain ⟨c1, c2, _, _, _, _, c7, _, c9⟩ := construct_spec env _ _ _ _ _ s h
    refine ⟨?_, c1, ?_⟩
    · unfold StoreSize at c9
      rw [c9, c7, c2]
    · intro i j hi hj
      rw [c1]
      exact get?_flatten_replicate initialValues populationSize i j hi hj
  · exact construct_returns env initialValues populationSize epochs numParents numGenesToModify

theorem construct_store_witness :
    construct zeroDrawEnv scenarioTemplate 4 3 1 1 = Except.ok scenarioStart ∧
    scenarioStart.mSolutions.length = 4 * scenarioTemplate.length ∧
    scenarioStart.mSolutions = (List.replicate 4 scenarioTemplate).flatten ∧
    ∀ i j, i < 4 → j < scenarioTemplate.length →
      scenarioStart.mSolutions.get? (i * scenarioTemplate.length + j)
        = scenarioTemplate.get? j :=
  ⟨rfl, (construct_store zeroDrawEnv scenarioTemplate 4 3 1 1).1 scenarioStart rfl⟩

/-! ## The Ranking Table names every individual once -/

theorem fitnessTable_index (env : Env) (s : GeneticAlgorithm) :
    (fitnessTable env s).map (fun e => e.index) = List.range s.mFitnessData.length := by
  unfold fitnessTable
  rw [List.map_map]
  exact List.map_id'' (fun _ => rfl) _

theorem InSync.index_perm {env : Env} {s : GeneticAlgorithm} (h : InSync env s) :
    (s.mFitnessData.map (fun e => e.index)).Perm (List.range s.mFitnessData.length) := by
  have hp := (stdSort_perm (fitnessTable env s)).map (fun e => e.index)
  rw [fitnessTable_index] at hp
  unfold InSync at h
  rw [← h] at hp
  exact hp

/-- C20: after construction and after every `advance` call the Ranking Table
has `populationSize` entries, the individual indices of its entries are a
permutation of `0 .. populationSize - 1`, and every entry carries the fitness
callback's value on the present gene slice of the individual it names; one
update pass from any state of the driver leaves the table, at its size, in
that condition. -/
theorem ranking_is_permutation (env : Env) (initialValues : List GAValue)
    (populationSize epochs numParents numGenesToModify k : Nat) (s0 : GeneticAlgorithm)
    (h0 : construct env initialValues populationSize epochs numParents numGenesToModify
      = Except.ok s0) :
    (∀ flags s, advanceTimes env k s0 = Except.ok (flags, s) →
      s.mFitnessData.length = populationSize ∧
      (s.mFitnessData.map (fun e => e.index)).Perm (List.range populationSize) ∧
      ∀ e ∈ s.mFitnessData, e.fitness = env.fitness (geneSlice s e.index)) ∧
    (∀ s s', update env s = Except.ok s' →
      s'.mFitnessData.length = s.mFitnessData.length ∧
      (s'.mFitnessData.map (fun e => e.index)).Perm (List.range s.mFitnessData.length) ∧
      ∀ e ∈ s'.mFitnessData, e.fitness = env.fitness (geneSlice s' e.index)) := by
  constructor
  · intro flags s h
    obtain ⟨r1, _, _, r4⟩ := reached_spec env _ _ _ _ _ k s0 s flags h0 h
    exact ⟨r1, r1 ▸ r4.index_perm, fun e he => ((r4.mem e).1 he).2⟩
  · intro s s' h
    obtain ⟨hk, hs⟩ := update_kept env s s' h
    exact ⟨hk.2.2.2.2.2.2, hk.2.2.2.2.2.2 ▸ hs.index_perm, fun e he => ((hs.mem e).1 he).2⟩

theorem ranking_is_permutation_witness :
    construct zeroDrawEnv scenarioTemplate 4 3 1 1 = Except.ok scenarioStart ∧
    ((∀ flags s, advanceTimes zeroDrawEnv 2 scenarioStart = Except.ok (flags, s) →
      s.mFitnessData.length = 4 ∧
      (s.mFitnessData.map (fun e => e.index)).Perm (List.range 4) ∧
      ∀ e ∈ s.mFitnessData, e.fitness = zeroDrawEnv.fitness (geneSlice s e.index)) ∧
    (∀ s s', update zeroDrawEnv s = Except.ok s' →
      s'.mFitnessData.length = s.mFitnessData.length ∧
      (s'.mFitnessData.map (fun e => e.index)).Perm (List.range s.mFitnessData.length) ∧
      ∀ e ∈ s'.mFitnessData, e.fitness = zeroDrawEnv.fitness (geneSlice s' e.index))) :=
  ⟨rfl, ranking_is_permutation zeroDrawEnv scenarioTemplate 4 3 1 1 2 scenarioStart rfl⟩

/-! ## Crossover pairs -/

theorem toInt_natAbs_le (n : Nat) : (toInt n).natAbs ≤ n := by
  unfold toInt Int.bmod
  have h2 : ((2 : Nat) ^ 32 : Nat) = 4294967296 := by norm_num
  simp only [h2]
  push_cast
  split <;> omega

/-- The offset `rand() % static_cast<int>(n)` is below `n`. -/
theorem randMod_lt (r n k : Nat) (h : randMod r n = Except.ok k) : k < n := by
  unfold randMod at h
  split at h
  · exact absurd h (by simp)
  · rename_i hz
    rw [Except.ok.injEq] at h
    have hle := toInt_natAbs_le n
    have hnn : 0 ≤ Int.tmod (r : Int) (toInt n) := Int.tmod_nonneg _ (by omega)
    rcases lt_or_gt_of_ne hz with hneg | hpos
    · have hlt : Int.tmod (r : Int) (toInt n) < -toInt n := by
        rw [← Int.tmod_neg]
        exact Int.tmod_lt_of_pos _ (by omega)
      omega
    · have hlt : Int.tmod (r : Int) (toInt n) < toInt n := Int.tmod_lt_of_pos _ hpos
      omega

theorem pickRandomGene_eq_ok (r child geneCount geneIndex : Nat)
    (h : pickRandomGene r child geneCount = Except.ok geneIndex) :
    ∃ geneOffset, geneOffset < geneCount ∧ geneIndex = child * geneCount + geneOffset := by
  unfold pickRandomGene at h
  simp only [bind_eq_ok, pure_eq_ok, getGeneIndex] at h
  obtain ⟨off, hoff, rfl⟩ := h
  exact ⟨off, randMod_lt r geneCount off hoff, rfl⟩

/-- C15 (counterexample): two constructions with positive `populationSize`,
`epochs` and `numParents` and a non-empty template in which `advance` runs
outside a container.  With `populationSize = 1` and `numParents = 2` the first
call does (the band length `size - numParents` wraps around); over the
two-gene template with `populationSize = 2` and `numParents = 1` the first call
returns, leaving individual 1 at rank position 0, and the second call does
(`copyGenes` writes at `parentIndex + i = 4` in a store of 4 genes). -/
theorem advance_leaves_containers :
    (construct zeroDrawEnv scenarioTemplate 1 1 2 1 >>= advance zeroDrawEnv)
      = Except.error Fault.outOfRange ∧
    (∃ r, (construct zeroDrawEnv wideTemplate 2 3 1 1 >>= advance zeroDrawEnv) = Except.ok r ∧
      r.2.mFitnessData.map (fun e => e.index) = [1, 0] ∧ r.2.mSolutions.length = 4 ∧
      advance zeroDrawEnv r.2 = Except.error Fault.outOfRange) :=
  ⟨rfl, _, rfl, by decide, by decide, rfl⟩

/-- C15 (amended): a container access returns exactly when its index is inside
the container; and for every construction over a one-gene template with
`0 < numParents ≤ populationSize < 2 ^ 31`, whatever the draws and the fitness
callback, any number of `advance` calls returns, the Ranking Table keeping
`populationSize` entries and the Population Store `populationSize` genes: no
Ranking Table access is at a position `≥ populationSize` and no store access at
an index `≥ populationSize * geneCount`. -/
theorem advance_stays_in_containers (env : Env) (tg : GAValue)
    (populationSize epochs numParents numGenesToModify k : Nat) (s0 : GeneticAlgorithm)
    (hp0 : 0 < numParents) (hp1 : numParents ≤ populationSize)
    (hp2 : populationSize < 2 ^ 31)
    (h0 : construct env [tg] populationSize epochs numParents numGenesToModify
      = Except.ok s0) :
    (∀ (v : List FitnessData) (i : Nat), (∃ e, readAt v i = Except.ok e) ↔ i < v.length) ∧
    (∀ (v : List GAValue) (i : Nat), (∃ g, readAt v i = Except.ok g) ↔ i < v.length) ∧
    (∀ (v : List GAValue) (i : Nat) (g : GAValue),
      (∃ w, writeAt v i g = Except.ok w) ↔ i < v.length) ∧
    ∃ flags s, advanceTimes env k s0 = Except.ok (flags, s) ∧
      s.mFitnessData.length = populationSize ∧
      s.mSolutions.length = populationSize * [tg].length := by
  refine ⟨readAt_returns_iff, readAt_returns_iff, writeAt_returns_iff, ?_⟩
  obtain ⟨⟨flags, s⟩, hr, _⟩ := advanceTimes_oneGene env tg populationSize k s0
    (construct_oneGene env tg _ _ _ _ s0 h0 hp0 hp1 hp2)
  obtain ⟨r1, _, r3, _⟩ := reached_spec env _ _ _ _ _ k s0 s flags h0 hr
  exact ⟨flags, s, hr, r1, r3⟩

theorem advance_stays_in_containers_witness :
    0 < 1 ∧ 1 ≤ 4 ∧ 4 < 2 ^ 31 ∧
    construct zeroDrawEnv scenarioTemplate 4 3 1 1 = Except.ok scenarioStart ∧
    ((∀ (v : List FitnessData) (i : Nat), (∃ e, readAt v i = Except.ok e) ↔ i < v.length) ∧
    (∀ (v : List GAValue) (i : Nat), (∃ g, readAt v i = Except.ok g) ↔ i < v.length) ∧
    (∀ (v : List GAValue) (i : Nat) (g : GAValue),
      (∃ w, writeAt v i g = Except.ok w) ↔ i < v.length) ∧
    ∃ flags s, advanceTimes zeroDrawEnv 3 scenarioStart = Except.ok (flags, s) ∧
      s.mFitnessData.length = 4 ∧
      s.mSolutions.length = 4 * scenarioTemplate.length) :=
  ⟨by decide, by decide, by decide, rfl,
    advance_stays_in_containers zeroDrawEnv
      { dataType := GADataType.Integer, numberValue := 5, minValue := 0, maxValue := 10 }
      4 3 1 1 3 scenarioStart (by decide) (by decide) (by decide) rfl⟩

/-! ## The scenario -/

theorem set_get?_self {α : Type} (l : List α) (k : Nat) (a : α) (h : l.get? k = some a) :
    l.set k a = l := by
  apply List.ext_getElem?
  intro j
  rw [List.get?_eq_getElem?] at h
  rw [List.getElem?_set]
  split
  · rename_i hkj
    subst hkj
    split
    · exact h.symm
    · rename_i hlt
      rw [List.getElem?_eq_none (by omega)]
  · rfl

/-- Over one gene per individual `copyGenes` writes every gene onto itself. -/
theorem copyGenes_one_eq (s s1 : GeneticAlgorithm) (parent child : Nat)
    (h : copyGenes s parent child = Except.ok s1) (hv : s.mValueCount = 1) : s1 = s := by
  cases s with
  | mk sols table best vc epoch epochs np ng calls =>
      simp only at hv
      subst hv
      unfold copyGenes at h
      simp only [List.range_succ, List.range_zero, List.nil_append, List.foldlM_cons,
        List.foldlM_nil, bind_eq_ok, pure_eq_ok, writeAt_eq_ok, readAt_eq_ok] at h
      obtain ⟨sols2, ⟨sols1, ⟨g, hg, _, rfl⟩, rfl⟩, rfl⟩ := h
      simp only [Nat.add_zero] at hg ⊢
      rw [set_get?_self _ _ _ hg]

theorem pickRandomGene_one_eq (r c k : Nat) (h : pickRandomGene r c 1 = Except.ok k) :
    k = c := by
  obtain ⟨off, hoff, rfl⟩ := pickRandomGene_eq_ok r c 1 k h
  omega

/-- The effect of one crossover iteration on a one-gene store. -/
theorem crossOverStep_one (env : Env) (s s' : GeneticAlgorithm) (i : Nat)
    (hv : s.mValueCount = 1) (h : crossOverStep env s i = Except.ok s') :
    ∃ (child child2 : FitnessData) (value1 value2 : GAValue),
      s.mFitnessData.get? i = some child ∧ s.mFitnessData.get? (i + 1) = some child2 ∧
      s.mSolutions.get? child.index = some value1 ∧
      s'.mSolutions = (s.mSolutions.set child.index (crossOver value1 value2).1).set
        child2.index (crossOver value1 value2).2 := by
  unfold crossOverStep at h
  simp only [nextRand, bind_eq_ok, pure_eq_ok, writeAt_eq_ok, readAt_eq_ok] at h
  obtain ⟨p, _, parent, _, child, hchild, child2, hchild2, s1, hs1, s2, hs2, gi, hgi, v1,
    hv1, v2, hv2, sols, ⟨_, rfl⟩, sols2, ⟨_, rfl⟩, rfl⟩ := h
  have e1 := copyGenes_one_eq _ _ _ _ hs1 hv
  subst e1
  have e2 := copyGenes_one_eq _ _ _ _ hs2 hv
  subst e2
  simp only [hv] at hgi hv2 ⊢
  have e3 := pickRandomGene_one_eq _ _ _ hgi
  subst e3
  simp only [getGeneIndex, Nat.mod_one, Nat.mul_one, Nat.add_zero] at hv2 ⊢
  exact ⟨child, child2, v1, v2, hchild, hchild2, hv1, rfl⟩

/-- The effect of one translation iteration on a one-gene store. -/
theorem translateStep_one (env : Env) (s s' : GeneticAlgorithm) (i : Nat)
    (hv : s.mValueCount = 1) (h : translateStep env s i = Except.ok s') :
    ∃ (child : FitnessData) (g : GAValue),
      s.mFitnessData.get? i = some child ∧
      s'.mSolutions = s.mSolutions.set child.index g := by
  unfold translateStep at h
  simp only [nextRand, bind_eq_ok, pure_eq_ok, writeAt_eq_ok, readAt_eq_ok] at h
  obtain ⟨p, _, parent, _, child, hchild, s1, hs1, gi, hgi, g, _, sols, ⟨_, rfl⟩, rfl⟩ := h
  have e1 := copyGenes_one_eq _ _ _ _ hs1 hv
  subst e1
  simp only [hv] at hgi
  have e3 := pickRandomGene_one_eq _ _ _ hgi
  subst e3
  exact ⟨child, _, hchild, rfl⟩

theorem geneSlice_one (s : GeneticAlgorithm) (j : Nat) (g : GAValue)
    (hv : s.mValueCount = 1) (h : s.mSolutions.get? j = some g) : geneSlice s j = [g] := by
  unfold geneSlice
  rw [hv, Nat.mul_one]
  rw [List.get?_eq_getElem?] at h
  obtain ⟨hlt, hg⟩ := List.getElem?_eq_some_iff.1 h
  rw [List.drop_eq_getElem_cons hlt, hg]
  simp

theorem mem_of_get?_eq {α : Type} {l : List α} {k : Nat} {a : α} (h : l.get? k = some a) :
    a ∈ l := by
  rw [List.get?_eq_getElem?] at h
  obtain ⟨hlt, rfl⟩ := List.getElem?_eq_some_iff.1 h
  exact List.getElem_mem hlt

/-- Two rank positions of a table in sync name two individuals. -/
theorem InSync.index_ne {env : Env} {s : GeneticAlgorithm} (h : InSync env s) (i j : Nat)
    (a b : FitnessData) (hij : i < j) (ha : s.mFitnessData.get? i = some a)
    (hb : s.mFitnessData.get? j = some b) : a.index ≠ b.index := by
  have hnd : (s.mFitnessData.map (fun e => e.index)).Nodup :=
    h.index_perm.nodup_iff.2 (List.nodup_range _)
  rw [List.get?_eq_getElem?] at ha hb
  have hj : j < (s.mFitnessData.map (fun e => e.index)).length := by
    rw [List.length_map]
    exact (List.getElem?_eq_some_iff.1 hb).1
  have hne := List.nodup_iff_getElem?_ne_getElem?.1 hnd i j hij hj
  rw [List.getElem?_map, List.getElem?_map, ha, hb] at hne
  intro heq
  exact hne (by simp [heq])

/-- One update pass of a one-gene driver with four individuals and one parent:
a crossover on rank positions 0 and 1, then a translation on rank position 2. -/
theorem update_four_one (env : Env) (s s' : GeneticAlgorithm) (hv : s.mValueCount = 1)
    (hnp : s.mNumParents = 1) (hlen : s.mFitnessData.length = 4)
    (h : update env s = Except.ok s') :
    ∃ (c0 c1 c2 : FitnessData) (value1 value2 g : GAValue),
      s.mFitnessData.get? 0 = some c0 ∧ s.mFitnessData.get? 1 = some c1 ∧
      s.mFitnessData.get? 2 = some c2 ∧ s.mSolutions.get? c0.index = some value1 ∧
      s'.mSolutions = ((s.mSolutions.set c0.index (crossOver value1 value2).1).set c1.index
        (crossOver value1 value2).2).set c2.index g := by
  have hb1 : mutateBand 4 1 = [] := by decide
  have hb2 : crossOverBand 4 1 = [0] := by decide
  have hb3 : translateBand 4 1 = [2] := by decide
  unfold update at h
  simp only [hlen, hnp, hb1, List.foldlM_nil, bind_eq_ok, pure_eq_ok] at h
  obtain ⟨s1, rfl, s2, h2, s3, h3, rfl⟩ := h
  simp only [hnp, hb2, List.foldlM_cons, List.foldlM_nil, bind_eq_ok, pure_eq_ok] at h2
  obtain ⟨t2, hcross, rfl⟩ := h2
  have hf2 := crossOverStep_frame env s t2 0 hcross
  simp only [hf2.2.2.2.2.1, hnp, hb3, List.foldlM_cons, List.foldlM_nil, bind_eq_ok,
    pure_eq_ok] at h3
  obtain ⟨t3, htrans, rfl⟩ := h3
  obtain ⟨c0, c1, v1, v2, hc0, hc1, hv1, hst2⟩ := crossOverStep_one env s t2 0 hv hcross
  obtain ⟨c2, g, hc2, hst3⟩ := translateStep_one env t2 t3 2 (hf2.2.1.trans hv) htrans
  rw [hf2.1] at hc2
  refine ⟨c0, c1, c2, v1, v2, g, hc0, hc1, hc2, hv1, ?_⟩
  rw [← hst2]
  exact hst3

/-- With the first gene's value as fitness, one update pass of a one-gene
driver with four individuals and one parent does not lower the best score:
the crossover moves the best value to the individual at rank position 1, which
the translation does not touch. -/
theorem update_best_monotone (env : Env) (s s' : GeneticAlgorithm)
    (hfit : env.fitness = firstGeneValue) (hv : s.mValueCount = 1) (hnp : s.mNumParents = 1)
    (hlen : s.mFitnessData.length = 4) (hlen2 : s.mSolutions.length = 4) (hsync : InSync env s)
    (h : update env s = Except.ok s') (m m' : ℚ) (hm : getBestScore s = Except.ok m)
    (hm' : getBestScore s' = Except.ok m') : m ≤ m' := by
  obtain ⟨c0, c1, c2, v1, v2, g, hc0, hc1, hc2, hv1, hst⟩ := update_four_one env s s' hv hnp hlen h
  obtain ⟨hk, hsync'⟩ := update_kept env s s' h
  have hc1mem : c1 ∈ s.mFitnessData := mem_of_get?_eq hc1
  have hc1lt : c1.index < 4 := hlen ▸ ((hsync.mem c1).1 hc1mem).1
  have hne : c1.index ≠ c2.index := hsync.index_ne 1 2 c1 c2 (by decide) hc1 hc2
  -- the old best score is the value of the gene at rank position 0
  have hm0 : m = c0.fitness := by
    unfold getBestScore at hm
    simp only [bind_eq_ok, pure_eq_ok, readAt_eq_ok] at hm
    obtain ⟨b, hb, rfl⟩ := hm
    rw [hc0] at hb
    exact (congrArg FitnessData.fitness (Option.some.inj hb)).symm
  have hm1 : c0.fitness = (v1.numberValue : ℚ) := by
    rw [((hsync.mem c0).1 (mem_of_get?_eq hc0)).2, hfit, geneSlice_one s c0.index v1 hv hv1]
    rfl
  -- individual `c1.index` carries that value after the pass
  have hget : s'.mSolutions.get? c1.index = some (crossOver v1 v2).2 := by
    rw [hst, List.get?_eq_getElem?, List.getElem?_set_ne hne.symm, List.getElem?_set_self]
    rw [List.length_set]
    omega
  have hfit1 : env.fitness (geneSlice s' c1.index) = (v1.numberValue : ℚ) := by
    rw [hfit, geneSlice_one s' c1.index _ (hk.1.trans hv) hget]
    rfl
  -- and the new best score is at least the fitness of that individual
  unfold getBestScore at hm'
  simp only [bind_eq_ok, pure_eq_ok] at hm'
  obtain ⟨b', hb', rfl⟩ := hm'
  have := hsync'.head_max b' hb' c1.index (by rw [hk.2.2.2.2.2.2, hlen]; exact hc1lt)
  rw [hfit1] at this
  rw [hm0, hm1]
  exact this

theorem getBestScore_returns (s : GeneticAlgorithm) (h : 0 < s.mFitnessData.length) :
    ∃ m, getBestScore s = Except.ok m := by
  unfold getBestScore
  rw [readAt_of_lt s.mFitnessData 0 h]
  exact ⟨_, rfl⟩

/-- One `advance` call of a scenario-shaped driver: it returns, with the flag
`counter + 1 < epochs`, a driver of the same shape whose best score is not
lower. -/
theorem scenario_step (env : Env) (tg : GAValue) (s : GeneticAlgorithm)
    (hfit : env.fitness = firstGeneValue) (hg : OneGene tg 4 s) (hnp : s.mNumParents = 1)
    (hng : s.mNumGenesToModify = 1) (hsync : InSync env s) :
    ∃ s' m m', advance env s = Except.ok (decide (s.mCurrentEpoch + 1 < s.mEpochs), s') ∧
      getBestScore s = Except.ok m ∧ getBestScore s' = Except.ok m' ∧ m ≤ m' ∧
      OneGene tg 4 s' ∧ s'.mNumParents = 1 ∧ s'.mNumGenesToModify = 1 ∧ InSync env s' ∧
      s'.mCurrentEpoch = s.mCurrentEpoch + 1 ∧ s'.mEpochs = s.mEpochs := by
  obtain ⟨⟨b, s'⟩, hadv, hg'⟩ := advance_oneGene env tg 4 s hg
  obtain ⟨a1, a2, a3, _, a5, a6, _, a8, a9⟩ := advance_spec env s s' b hadv
  have hlen : s.mFitnessData.length = 4 := hg.2.2.2.2.2.1
  obtain ⟨m, hm⟩ := getBestScore_returns s (by omega)
  obtain ⟨m', hm'⟩ := getBestScore_returns s' (by omega)
  have hup : update env { s with mCurrentEpoch := s.mCurrentEpoch + 1 } = Except.ok s' := by
    have h := hadv
    rw [advance_eq_updateTimes, hng] at h
    simp only [updateTimes, bind_eq_ok, pure_eq_ok, Prod.mk.injEq] at h
    obtain ⟨t, ⟨t1, ht1, rfl⟩, _, rfl⟩ := h
    rw [hng]
    exact ht1
  have hmono := update_best_monotone env { s with mCurrentEpoch := s.mCurrentEpoch + 1 } s' hfit
    hg.1 hnp hlen hg.2.2.2.2.1 hsync hup m m' hm hm'
  subst a2
  exact ⟨s', m, m', hadv, hm, hm', hmono, hg', a5.trans hnp, a6.trans hng, a9 hsync, a1, a3⟩

/-- C14: in the scenario (one Integer gene 5 in [0, 10], population 4, 3 epochs,
1 parent, 1 gene to modify, fitness the gene's value), for every sequence of
draws: the constructor returns a driver on which `hasSolution` is true and
`getBestScore` is in [0, 10]; three `advance` calls return `true`, `true` and
`false`; and `getBestScore` after each call is at least its value before the
call. -/
theorem scenario_run (rand : Nat → Nat) (fp : FloatOps) :
    ∃ (s0 s1 s2 s3 : GeneticAlgorithm) (m0 m1 m2 m3 : ℚ),
      construct { rand := rand, fitness := firstGeneValue, fp := fp } scenarioTemplate 4 3 1 1
        = Except.ok s0 ∧
      hasSolution s0 = Except.ok true ∧ getBestScore s0 = Except.ok m0 ∧ 0 ≤ m0 ∧ m0 ≤ 10 ∧
      advance { rand := rand, fitness := firstGeneValue, fp := fp } s0 = Except.ok (true, s1) ∧
      advance { rand := rand, fitness := firstGeneValue, fp := fp } s1 = Except.ok (true, s2) ∧
      advance { rand := rand, fitness := firstGeneValue, fp := fp } s2 = Except.ok (false, s3) ∧
      getBestScore s1 = Except.ok m1 ∧ getBestScore s2 = Except.ok m2 ∧
      getBestScore s3 = Except.ok m3 ∧ m0 ≤ m1 ∧ m1 ≤ m2 ∧ m2 ≤ m3 := by
  have h0 : construct { rand := rand, fitness := firstGeneValue, fp := fp } scenarioTemplate
      4 3 1 1 = Except.ok scenarioStart := rfl
  obtain ⟨_, _, c3, c4, c5, c6, _, c8, _⟩ := construct_spec _ _ _ _ _ _ _ h0
  have hg0 := construct_oneGene _ _ 4 3 1 1 scenarioStart h0 (by decide) (by decide)
    (by norm_num)
  obtain ⟨s1, m0, m1, ha1, hm0, hm1, hle1, hg1, hnp1, hng1, hs1, e1, E1⟩ :=
    scenario_step _ _ scenarioStart rfl hg0 rfl rfl c8
  obtain ⟨s2, m1', m2, ha2, hm1', hm2, hle2, hg2, hnp2, hng2, hs2, e2, E2⟩ :=
    scenario_step _ _ s1 rfl hg1 hnp1 hng1 hs1
  obtain ⟨s3, m2', m3, ha3, hm2', hm3, hle3, _, _, _, _, _, _⟩ :=
    scenario_step _ _ s2 rfl hg2 hnp2 hng2 hs2
  have hm0v : m0 = 5 := by
    have h5 : getBestScore scenarioStart = Except.ok 5 := rfl
    rw [h5] at hm0
    exact (Except.ok.inj hm0).symm
  have hm11 : m1' = m1 := Except.ok.inj (hm1'.symm.trans hm1)
  have hm22 : m2' = m2 := Except.ok.inj (hm2'.symm.trans hm2)
  subst hm11 hm22
  have hf1 : decide (scenarioStart.mCurrentEpoch + 1 < scenarioStart.mEpochs) = true := by
    decide
  have hf2 : decide (s1.mCurrentEpoch + 1 < s1.mEpochs) = true := by
    rw [e1, E1]
    decide
  have hf3 : decide (s2.mCurrentEpoch + 1 < s2.mEpochs) = false := by
    rw [e2, E2, e1, E1]
    decide
  rw [hf1] at ha1
  rw [hf2] at ha2
  rw [hf3] at ha3
  refine ⟨scenarioStart, s1, s2, s3, m0, m1', m2', m3, h0, rfl, hm0, ?_, ?_, ha1, ha2, ha3,
    hm1, hm2, hm3, hle1, hle2, hle3⟩
  · rw [hm0v]; norm_num
  · rw [hm0v]; norm_num

end hg
